import Mathlib

/-!
# CommandLineReader (grmoon/dijkstra)

A shallow embedding of `src/CommandLineReader.cpp`: the interactive reader that
builds the city/road graph handed to Dijkstra's algorithm.

Conventions of the embedding.

* Standard input is a list of `Line`s.  Every `scanf` call of the source is
  followed by `cleanBuffer()`, which discards the rest of the line, so each call
  consumes exactly one line.  A `Line` records the values the variables hold
  after the call, one field per conversion used in the source.
* A run that has no defined result ends in a `Fault`: at the end of the input
  the source retries for ever or works on uninitialised variables
  (`Fault.endOfInput`); an `int` increment or decrement that leaves the `int`
  range is undefined behaviour (`Fault.intOverflow`); so is the call through the
  null pointer that `operator[]` yields for a key the map lacks
  (`Fault.nullCity`).
* `unsigned long` is 64 bits wide and `int` 32 bits.  Unsigned arithmetic wraps
  modulo `2 ^ 64`.
* A `std::map<unsigned long, City *>` is a key-sorted association list in which
  every key owns its `City`.  The map is copied when it is passed to
  `promptRoadDetails`, but the copy holds the same `City` pointers, so the
  function returns the cities as the caller sees them afterwards.
* Output (`printf`, `InputReader::logError`) is recorded as a list of `Event`s.
-/

namespace CommandLineReader

/-- Largest value of an `unsigned long`. -/
def ULONG_MAX : Nat := 2 ^ 64 - 1

/-- Largest value of an `int`. -/
def INT_MAX : Int := 2 ^ 31 - 1

/-- Smallest value of an `int`. -/
def INT_MIN : Int := -(2 ^ 31)

/-- One line of standard input, as the values the `scanf` calls store from it:
`d` for `scanf("%d", ..)`, `lu` for `scanf("%lu", ..)`, and `fromCity`, `toCity`,
`length` for `scanf("%lu:%lu:%lu", &from, &to, &length)`. -/
structure Line where
  d : Int := 0
  lu : Nat := 0
  fromCity : Nat := 0
  toCity : Nat := 0
  length : Nat := 0
  deriving DecidableEq, Repr

/-- Modelled from the spec: the `Road` class, whose header is not among the
sources.  A directed edge with attributes `from`, `to`, `length` and
`isOptional` (the source reads `temp->from`, `temp->to`, `temp->length`);
`from` and `to` are reserved words here, so the endpoints are `fromCity` and
`toCity`, the names the prompt of `promptRoadDetails` uses. -/
structure Road where
  fromCity : Nat
  toCity : Nat
  length : Nat
  isOptional : Bool
  deriving DecidableEq, Repr

/-- Modelled from the spec: the constructor `Road(to, from, length, optional)`,
called in that argument order by `promptRoadDetails`; it stores each argument in
the attribute of the same name.  The specification has the road constructed
from the fields as they are (section 4.3: a zero length is accepted as-is,
repeated pairs are permitted; section 9: neither a positive length nor distinct
endpoints is validated), so the constructor is total and raises no exception. -/
def Road.new (toCity fromCity length : Nat) (optional : Bool) : Road :=
  { fromCity := fromCity, toCity := toCity, length := length, isOptional := optional }

/-- Modelled from the spec: the `City` class, whose header is not among the
sources.  A node with an integer id and two ordered road lists, `fromRoads`
(outgoing) and `toRoads` (incoming), the member names `promptRoadDetails` uses. -/
structure City where
  id : Nat
  fromRoads : List Road
  toRoads : List Road
  deriving DecidableEq, Repr

/-- Modelled from the spec: the constructor `City(i)`: a city with id `i` and no
roads yet (the lists are filled only when mandatory roads are registered). -/
def City.new (i : Nat) : City :=
  { id := i, fromRoads := [], toRoads := [] }

/-- The container `std::map<unsigned long, City *>`, in key order. -/
abbrev NodeSet := List (Nat × City)

/-- What `std::map::size` returns. -/
def NodeSet.size (m : NodeSet) : Nat := m.length

/-- What `std::map::insert` does: the pair is placed at its position in key
order, and nothing changes when the key is already present. -/
def NodeSet.insert : NodeSet → Nat → City → NodeSet
  | [], k, c => [(k, c)]
  | (k', c') :: rest, k, c =>
    if k = k' then (k', c') :: rest
    else if k < k' then (k, c) :: (k', c') :: rest
    else (k', c') :: NodeSet.insert rest k c

/-- The city stored under key `k`, when there is one. -/
def NodeSet.find? : NodeSet → Nat → Option City
  | [], _ => none
  | (k', c') :: rest, k => if k = k' then some c' else NodeSet.find? rest k

/-- Replaces the city stored under key `k` by `f` of it: the effect, seen
through the map, of mutating the object `cities[k]` points to. -/
def NodeSet.modify : NodeSet → Nat → (City → City) → NodeSet
  | [], _, _ => []
  | (k', c') :: rest, k, f =>
    if k = k' then (k', f c') :: rest else (k', c') :: NodeSet.modify rest k f

/-- The keys of the map, in order. -/
def NodeSet.keys (m : NodeSet) : List Nat := m.map Prod.fst

/-- Everything the reader writes, one constructor per output statement of the
source, carrying the values its format string is given. -/
inductive Event
  /-- The prompt `printf("How many cities are in your graph?: ")`. -/
  | askCities
  /-- The error `logError("There must be at least 2 cities in your graph.")`. -/
  | citiesError
  /-- The line `printf("  %d cities (0 - %d) have been added.\n\n", numCities, numCities - 1)`. -/
  | citiesAdded (numCities : Int)
  /-- The prompt `printf("How many %s roads are in your graph?: ", optionalText)`. -/
  | askRoads (optional : Bool)
  /-- The line `printf("  %lu %s roads (0 - %lu) are being added.\n\n", ..)`. -/
  | roadsAdded (numRoads : Nat) (optional : Bool) (last : Nat)
  /-- The line `printf("  Enter the details for each road (fromCity:toCity:length):\n")`. -/
  | detailsHeader
  /-- The prompt `printf("    Road %d: ", i)`. -/
  | askRoad (i : Int)
  /-- The error `logError("Values for 'fromCity' and 'toCity' must be unique integers between
  0 and %lu inclusive and the value for 'length' must be a positive integer.", cityLimit)` -/
  | roadError (cityLimit : Nat)
  /-- The line `printf("      New %s road from %lu to %lu with length %lu.\n", ..)`. -/
  | newRoad (optional : Bool) (fromCity toCity length : Nat)
  /-- The prompt `printf("What city do you want to %s in?: ", ..)`. -/
  | askLimit (start : Bool)
  /-- The error `logError("The %s city must be an integer between 0 and %lu.", .., cityLimit)`. -/
  | limitError (start : Bool) (cityLimit : Nat)
  /-- The line `printf("  %sing city: %lu\n\n", .., ret)`. -/
  | limitChosen (start : Bool) (ret : Nat)
  /-- The empty line `printf("\n")`. -/
  | newline
  deriving DecidableEq, Repr

/-- Why a run has no defined result. -/
inductive Fault
  /-- A `scanf` call finds the input exhausted. -/
  | endOfInput
  /-- An `int` is incremented at `INT_MAX` or decremented at `INT_MIN`. -/
  | intOverflow
  /-- A member is accessed through `cities[k]` for a key `k` the map lacks. -/
  | nullCity
  deriving DecidableEq, Repr

/-- The subtraction `x - 1` on `unsigned long`. -/
def ulongPred (x : Nat) : Nat := (x + 2 ^ 64 - 1) % 2 ^ 64

/-- The conversion of an `int` to `unsigned long`, as the comparison
`i < numRoads` performs it. -/
def toULong (i : Int) : Nat := (i % 2 ^ 64).toNat

/-- The statement `i++` on an `int`: undefined at `INT_MAX`. -/
def intIncr (i : Int) : Except Fault Int :=
  if i < INT_MAX then .ok (i + 1) else .error Fault.intOverflow

/-- The statement `i--` on an `int`: undefined at `INT_MIN`. -/
def intDecr (i : Int) : Except Fault Int :=
  if INT_MIN < i then .ok (i - 1) else .error Fault.intOverflow

/-- The do-while loop of `promptCities`: one line per round, repeated while the
value read is below 2. -/
def promptCitiesLoop : List Line → List Event → Except Fault (Int × List Line × List Event)
  | [], _ => .error Fault.endOfInput
  | l :: rest, out =>
    if l.d < 2 then promptCitiesLoop rest (out ++ [Event.askCities, Event.citiesError])
    else .ok (l.d, rest, out ++ [Event.askCities])

/-- The for loop of `promptCities`: `cities.insert(pair(i, new City(i)))` for
`i = 0 .. numCities - 1`.  The index stays below `numCities`, an `int`, so its
increment cannot overflow. -/
def insertCities (numCities : Int) : NodeSet :=
  (List.range numCities.toNat).foldl (fun cities i => NodeSet.insert cities i (City.new i)) []

/-- The function `CommandLineReader::promptCities`: the map, the unread input and the output. -/
def promptCities (inp : List Line) : Except Fault (NodeSet × List Line × List Event) :=
  match promptCitiesLoop inp [] with
  | .error e => .error e
  | .ok (numCities, rest, out) =>
    .ok (insertCities numCities, rest, out ++ [Event.citiesAdded numCities])

/-- The function `CommandLineReader::promptRoads`: the count, the unread input and the output. -/
def promptRoads (optional : Bool) : List Line → Except Fault (Nat × List Line × List Event)
  | [] => .error Fault.endOfInput
  | l :: rest =>
    if l.lu = ULONG_MAX then
      .ok (0, rest, [Event.askRoads optional, Event.roadsAdded 0 optional 0])
    else .ok (l.lu, rest, [Event.askRoads optional])

/-- The two statements `cities[temp->from]->fromRoads.push_back(temp)` and
`cities[temp->to]->toRoads.push_back(temp)`. -/
def registerRoad (cities : NodeSet) (temp : Road) : Except Fault NodeSet :=
  match NodeSet.find? cities temp.fromCity with
  | none => .error Fault.nullCity
  | some _ =>
    let cities1 := NodeSet.modify cities temp.fromCity
      (fun c => { c with fromRoads := c.fromRoads ++ [temp] })
    match NodeSet.find? cities1 temp.toCity with
    | none => .error Fault.nullCity
    | some _ =>
      .ok (NodeSet.modify cities1 temp.toCity
        (fun c => { c with toRoads := c.toRoads ++ [temp] }))

/-- The variables of the for loop of `promptRoadDetails`: the index `i`, the
vector `roads`, the cities, and the output written so far. -/
structure LoopState where
  i : Int
  roads : List Road
  cities : NodeSet
  out : List Event
  deriving DecidableEq, Repr

/-- One round of the for loop of `promptRoadDetails` on the line `l`: the body,
followed by the `i++` of the loop header.  In the catch block the round is
`logError`, `i--`, `continue`, and then that `i++`. -/
def roadStep (cityLimit : Nat) (optional : Bool) (l : Line) (s : LoopState) :
    Except Fault LoopState :=
  if l.fromCity > cityLimit ∨ l.toCity > cityLimit then
    match intDecr s.i with
    | .error e => .error e
    | .ok i1 =>
      match intIncr i1 with
      | .error e => .error e
      | .ok i2 =>
        .ok { s with i := i2, out := s.out ++ [Event.askRoad s.i, Event.roadError cityLimit] }
  else
    let temp := Road.new l.toCity l.fromCity l.length optional
    match (if optional then .ok s.cities else registerRoad s.cities temp) with
    | .error e => .error e
    | .ok cities1 =>
      match intIncr s.i with
      | .error e => .error e
      | .ok i2 =>
        .ok { i := i2, roads := s.roads ++ [temp], cities := cities1,
              out := s.out ++ [Event.askRoad s.i,
                Event.newRoad optional temp.fromCity temp.toCity temp.length] }

/-- The for loop of `promptRoadDetails`, from the test `i < numRoads` on: the
final state and the unread input. -/
def roadLoop (numRoads cityLimit : Nat) (optional : Bool) :
    List Line → LoopState → Except Fault (LoopState × List Line)
  | [], s => if toULong s.i < numRoads then .error Fault.endOfInput else .ok (s, [])
  | l :: rest, s =>
    if toULong s.i < numRoads then
      match roadStep cityLimit optional l s with
      | .error e => .error e
      | .ok s1 => roadLoop numRoads cityLimit optional rest s1
    else .ok (s, l :: rest)

/-- The function `CommandLineReader::promptRoadDetails`.  Returns the vector `roads`, the
cities as the caller sees them afterwards, the unread input and the output. -/
def promptRoadDetails (numRoads : Nat) (cities : NodeSet) (optional : Bool)
    (inp : List Line) : Except Fault (List Road × NodeSet × List Line × List Event) :=
  match roadLoop numRoads (ulongPred (NodeSet.size cities)) optional inp
      { i := 0, roads := [], cities := cities,
        out := if numRoads > 0 then [Event.detailsHeader] else [] } with
  | .error e => .error e
  | .ok (s, rest) => .ok (s.roads, s.cities, rest, s.out)

/-- The do-while loop of `promptLimit`. -/
def promptLimitLoop (cityLimit : Nat) (start : Bool) :
    List Line → List Event → Except Fault (Nat × List Line × List Event)
  | [], _ => .error Fault.endOfInput
  | l :: rest, out =>
    if l.lu > cityLimit then
      promptLimitLoop cityLimit start rest
        (out ++ [Event.askLimit start, Event.limitError start cityLimit])
    else .ok (l.lu, rest, out ++ [Event.askLimit start, Event.limitChosen start l.lu])

/-- The function `CommandLineReader::promptLimit`: the id, the unread input and the output. -/
def promptLimit (numCities : Nat) (start : Bool) (inp : List Line) :
    Except Fault (Nat × List Line × List Event) :=
  promptLimitLoop (ulongPred numCities) start inp []

/-- Modelled from the spec: the `InputReaderResult` class, whose header is not
among the sources: the aggregate of the node set, the optional roads and the
query endpoints (source, target). -/
structure InputReaderResult where
  source : Nat
  target : Nat
  cities : NodeSet
  optRoads : List Road
  deriving DecidableEq, Repr

/-- Modelled from the spec: the constructor
`InputReaderResult(to, from, cities, optRoads)`, called in that argument order
by `read`: `from` is the source of the query and `to` its target. -/
def InputReaderResult.new (toCity fromCity : Nat) (cities : NodeSet) (optRoads : List Road) :
    InputReaderResult :=
  { source := fromCity, target := toCity, cities := cities, optRoads := optRoads }

/-- The function `CommandLineReader::read`: the result, the unread input and the output. -/
def read (inp0 : List Line) : Except Fault (InputReaderResult × List Line × List Event) :=
  match promptCities inp0 with
  | .error e => .error e
  | .ok (cities, inp1, out1) =>
  match promptRoads false inp1 with
  | .error e => .error e
  | .ok (numExistingRoads, inp2, out2) =>
  match promptRoadDetails numExistingRoads cities false inp2 with
  | .error e => .error e
  | .ok (_, cities3, inp3, out3) =>
  match promptRoads true inp3 with
  | .error e => .error e
  | .ok (numOptRoads, inp4, out4) =>
  match (if numOptRoads > 0 then promptRoadDetails numOptRoads cities3 true inp4
         else .ok ([], cities3, inp4, [])) with
  | .error e => .error e
  | .ok (optRoads, cities5, inp5, out5) =>
  match promptLimit (NodeSet.size cities5) true inp5 with
  | .error e => .error e
  | .ok (fromCity, inp6, out6) =>
  match promptLimit (NodeSet.size cities5) false inp6 with
  | .error e => .error e
  | .ok (toCity, inp7, out7) =>
    .ok (InputReaderResult.new toCity fromCity cities5 optRoads, inp7,
      out1 ++ out2 ++ out3 ++ [Event.newline] ++ out4 ++ out5 ++ [Event.newline]
        ++ out6 ++ [Event.newline] ++ out7 ++ [Event.newline])

/-! ## Vocabulary of the statements -/

/-- The range test of `promptRoadDetails` passes on the line: neither
`from > cityLimit` nor `to > cityLimit`. -/
def inRange (cityLimit : Nat) (l : Line) : Bool :=
  decide (l.fromCity ≤ cityLimit) && decide (l.toCity ≤ cityLimit)

/-- The first `n` lines of the input that pass the range test, in input order. -/
def acceptedLines (cityLimit n : Nat) (inp : List Line) : List Line :=
  (inp.filter (inRange cityLimit)).take n

/-- The input that follows the `n`-th line passing the range test (all of it
when `n = 0`, nothing when there are fewer than `n` such lines). -/
def unreadAfter (cityLimit : Nat) : Nat → List Line → List Line
  | 0, inp => inp
  | _ + 1, [] => []
  | n + 1, l :: rest =>
    if inRange cityLimit l then unreadAfter cityLimit n rest
    else unreadAfter cityLimit (n + 1) rest

/-- The road with the fields of an input line and the given classification. -/
def roadOf (optional : Bool) (l : Line) : Road :=
  { fromCity := l.fromCity, toCity := l.toCity, length := l.length, isOptional := optional }

/-- The node set with road `r` appended to the outgoing list of the city under
key `r.fromCity` and to the incoming list of the city under key `r.toCity`. -/
def addRoad (cities : NodeSet) (r : Road) : NodeSet :=
  NodeSet.modify
    (NodeSet.modify cities r.fromCity (fun c => { c with fromRoads := c.fromRoads ++ [r] }))
    r.toCity (fun c => { c with toRoads := c.toRoads ++ [r] })

/-- The keys of the node set are `0 .. size - 1`, in order. -/
def NodeSet.Dense (m : NodeSet) : Prop := NodeSet.keys m = List.range (NodeSet.size m)

instance (m : NodeSet) : Decidable (NodeSet.Dense m) := by
  unfold NodeSet.Dense
  infer_instance

/-- The cities after the roads `rs` have been collected: untouched when the
roads are optional, each road registered in turn when they are mandatory. -/
def citiesAfter (optional : Bool) (cities : NodeSet) (rs : List Road) : NodeSet :=
  if optional then cities else rs.foldl addRoad cities

/-- The city `c` with the roads of `rs` that leave key `k` appended to its
outgoing list and those that arrive at key `k` appended to its incoming list. -/
def cityWith (k : Nat) (rs : List Road) (c : City) : City :=
  { id := c.id,
    fromRoads := c.fromRoads ++ rs.filter (fun r => decide (r.fromCity = k)),
    toRoads := c.toRoads ++ rs.filter (fun r => decide (r.toCity = k)) }

/-- The session of the scenario in the specification: three cities, the two
mandatory roads `0:1:5` and `1:2:3`, no optional road, start 0, end 2. -/
def scenarioInput : List Line :=
  [{ d := 3 }, { lu := 2 }, { fromCity := 0, toCity := 1, length := 5 },
   { fromCity := 1, toCity := 2, length := 3 }, { lu := 0 }, { lu := 0 }, { lu := 2 }]

/-- The three cities of the scenario with its two mandatory roads registered. -/
def scenarioCities : NodeSet :=
  [(0, { id := 0, fromRoads := [⟨0, 1, 5, false⟩], toRoads := [] }),
   (1, { id := 1, fromRoads := [⟨1, 2, 3, false⟩], toRoads := [⟨0, 1, 5, false⟩] }),
   (2, { id := 2, fromRoads := [], toRoads := [⟨1, 2, 3, false⟩] })]

/-- What the reader writes during the scenario. -/
def scenarioOutput : List Event :=
  [Event.askCities, Event.citiesAdded 3, Event.askRoads false, Event.detailsHeader,
   Event.askRoad 0, Event.newRoad false 0 1 5, Event.askRoad 1, Event.newRoad false 1 2 3,
   Event.newline, Event.askRoads true, Event.newline,
   Event.askLimit true, Event.limitChosen true 0, Event.newline,
   Event.askLimit false, Event.limitChosen false 2, Event.newline]

/-- Calls of `promptRoadDetails` made one after the other on the same cities,
each with its own count, classification and input; the cities after the last. -/
def promptRoadDetailsCalls : List (Nat × Bool × List Line) → NodeSet → Except Fault NodeSet
  | [], cities => .ok cities
  | (numRoads, optional, inp) :: calls, cities =>
    match promptRoadDetails numRoads cities optional inp with
    | .error e => .error e
    | .ok (_, cities1, _, _) => promptRoadDetailsCalls calls cities1

/-- Every city of the map has its key as id. -/
def NodeSet.KeysAreIds (m : NodeSet) : Prop := ∀ p ∈ m, p.2.id = p.1

/-- The adjacency invariant: every road in a city's outgoing list leaves that
city, every road in its incoming list reaches it, and all of them are mandatory. -/
def NodeSet.AdjacencyInv (m : NodeSet) : Prop :=
  ∀ p ∈ m,
    (∀ r ∈ p.2.fromRoads, r.fromCity = p.2.id ∧ r.isOptional = false) ∧
    (∀ r ∈ p.2.toRoads, r.toCity = p.2.id ∧ r.isOptional = false)

/-- The lines read while `n` in-range lines are collected: the input up to and
including the `n`-th line that passes the range test (nothing when `n = 0`, the
whole input when it has fewer than `n` such lines). -/
def readUpTo (cityLimit : Nat) : Nat → List Line → List Line
  | 0, _ => []
  | _ + 1, [] => []
  | n + 1, l :: rest =>
    if inRange cityLimit l then l :: readUpTo cityLimit n rest
    else l :: readUpTo cityLimit (n + 1) rest

/-- The bound `cityLimit = n - 1` of a map of `n` cities is sound: `n ≥ 2`, the
`unsigned long` subtraction does not wrap, and the bound is at least 1. -/
def BoundOk (n : Nat) : Prop := 2 ≤ n ∧ ulongPred n = n - 1 ∧ 1 ≤ ulongPred n

theorem ulongPred_of_pos (n : Nat) (h1 : 1 ≤ n) (h2 : n ≤ ULONG_MAX) : ulongPred n = n - 1 := by
  unfold ulongPred
  unfold ULONG_MAX at h2
  omega

theorem toULong_of_nonneg (i : Int) (h0 : 0 ≤ i) (h1 : i ≤ INT_MAX) : toULong i = i.toNat := by
  unfold toULong
  unfold INT_MAX at h1
  have : i % 2 ^ 64 = i := Int.emod_eq_of_lt h0 (by omega)
  rw [this]

theorem intIncr_ok (i : Int) (h : i < INT_MAX) : intIncr i = .ok (i + 1) := by
  simp [intIncr, h]

theorem intDecr_ok (i : Int) (h : INT_MIN < i) : intDecr i = .ok (i - 1) := by
  simp [intDecr, h]

/-! ## The node set -/

theorem NodeSet.insert_of_lt (k : Nat) (c : City) :
    ∀ m : NodeSet, (∀ p ∈ m, p.1 < k) → NodeSet.insert m k c = m ++ [(k, c)]
  | [], _ => rfl
  | (k1, c1) :: rest, h => by
    have hk : k1 < k := h (k1, c1) (List.mem_cons_self _ _)
    have ih := NodeSet.insert_of_lt k c rest (fun p hp => h p (List.mem_cons_of_mem _ hp))
    have h1 : ¬ k = k1 := by omega
    have h2 : ¬ k < k1 := by omega
    simp [NodeSet.insert, h1, h2, ih]

theorem insertCities_foldl (n : Nat) :
    (List.range n).foldl (fun cities i => NodeSet.insert cities i (City.new i)) []
      = (List.range n).map (fun i => (i, City.new i)) := by
  induction n with
  | zero => rfl
  | succ n ih =>
    rw [List.range_succ, List.foldl_append, ih, List.map_append]
    simp only [List.foldl_cons, List.foldl_nil, List.map_cons, List.map_nil]
    apply NodeSet.insert_of_lt
    intro p hp
    simp only [List.mem_map, List.mem_range] at hp
    obtain ⟨a, ha, rfl⟩ := hp
    exact ha

theorem insertCities_eq (c : Int) :
    insertCities c = (List.range c.toNat).map (fun i => (i, City.new i)) :=
  insertCities_foldl c.toNat

theorem NodeSet.find?_of_mem :
    ∀ (m : NodeSet) (k : Nat) (c : City), (NodeSet.keys m).Nodup → (k, c) ∈ m →
      NodeSet.find? m k = some c
  | [], _, _, _, h => by simp at h
  | (k1, c1) :: rest, k, c, hn, h => by
    simp only [NodeSet.keys, List.map_cons, List.nodup_cons] at hn
    rcases List.mem_cons.1 h with heq | hmem
    · cases heq
      simp [NodeSet.find?]
    · have hne : ¬ k = k1 := by
        intro hk
        apply hn.1
        rw [← hk]
        exact List.mem_map.2 ⟨(k, c), hmem, rfl⟩
      simp only [NodeSet.find?, hne, if_false]
      exact NodeSet.find?_of_mem rest k c hn.2 hmem

theorem insertCities_keys (c : Int) : NodeSet.keys (insertCities c) = List.range c.toNat := by
  rw [insertCities_eq]
  simp [NodeSet.keys, Function.comp_def]

theorem insertCities_size (c : Int) : NodeSet.size (insertCities c) = c.toNat := by
  rw [insertCities_eq]
  simp [NodeSet.size]

theorem insertCities_find? (c : Int) (i : Nat) (h : i < c.toNat) :
    NodeSet.find? (insertCities c) i = some (City.new i) := by
  apply NodeSet.find?_of_mem
  · rw [insertCities_keys]
    exact List.nodup_range _
  · rw [insertCities_eq]
    exact List.mem_map.2 ⟨i, List.mem_range.2 h, rfl⟩

/-! ## `promptCities` -/

theorem promptCitiesLoop_spec (l : Line) (rest : List Line) (hl : 2 ≤ l.d) :
    ∀ (rejected : List Line) (out : List Event), (∀ x ∈ rejected, x.d < 2) →
      promptCitiesLoop (rejected ++ l :: rest) out
        = .ok (l.d, rest,
            out ++ (rejected.map (fun _ => [Event.askCities, Event.citiesError])).flatten
              ++ [Event.askCities])
  | [], out, _ => by
    have : ¬ l.d < 2 := by omega
    simp [promptCitiesLoop, this]
  | x :: xs, out, h => by
    have hx : x.d < 2 := h x (List.mem_cons_self _ _)
    have ih := promptCitiesLoop_spec l rest hl xs
      (out ++ [Event.askCities, Event.citiesError]) (fun y hy => h y (List.mem_cons_of_mem _ hy))
    simp [promptCitiesLoop, hx, ih]

/-- C2: `promptCities` rejects every count below 2 (an error and a new prompt for
each, no city made) and accepts the first count `c ≥ 2`; the node set returned
has `c` entries, its keys are `0 .. c-1` in order, and key `i` holds a city with
id `i` and no roads.  The input after the accepted line is left unread. -/
theorem promptCities_first_valid_count (rejected : List Line) (l : Line) (rest : List Line)
    (hrej : ∀ x ∈ rejected, x.d < 2) (hl : 2 ≤ l.d) :
    ∃ cities : NodeSet,
      promptCities (rejected ++ l :: rest)
        = .ok (cities, rest,
            (rejected.map (fun _ => [Event.askCities, Event.citiesError])).flatten
              ++ [Event.askCities, Event.citiesAdded l.d])
      ∧ (NodeSet.size cities : Int) = l.d
      ∧ NodeSet.keys cities = List.range l.d.toNat
      ∧ ∀ i, i < l.d.toNat →
          ∃ c, NodeSet.find? cities i = some c ∧ c.id = i ∧ c.fromRoads = [] ∧ c.toRoads = [] := by
  refine ⟨insertCities l.d, ?_, ?_, insertCities_keys l.d, ?_⟩
  · simp [promptCities, promptCitiesLoop_spec l rest hl rejected [] hrej]
  · rw [insertCities_size]
    omega
  · intro i hi
    exact ⟨City.new i, insertCities_find? l.d i hi, rfl, rfl, rfl⟩

/-- C2, the scenario of the specification: the counts 1 then 2 give one error
and a node set of two cities. -/
theorem promptCities_first_valid_count_witness :
    ∃ cities : NodeSet,
      promptCities ([{ d := 1 }] ++ ({ d := 2 } : Line) :: [])
        = .ok (cities, [],
            ([({ d := 1 } : Line)].map (fun _ => [Event.askCities, Event.citiesError])).flatten
              ++ [Event.askCities, Event.citiesAdded ({ d := 2 } : Line).d])
      ∧ (NodeSet.size cities : Int) = ({ d := 2 } : Line).d
      ∧ NodeSet.keys cities = List.range ({ d := 2 } : Line).d.toNat
      ∧ ∀ i, i < ({ d := 2 } : Line).d.toNat →
          ∃ c, NodeSet.find? cities i = some c ∧ c.id = i ∧ c.fromRoads = [] ∧ c.toRoads = [] :=
  promptCities_first_valid_count [{ d := 1 }] { d := 2 } [] (by decide) (by decide)

/-! ## Lookups and updates in the node set -/

theorem NodeSet.keys_modify (k : Nat) (f : City → City) :
    ∀ m : NodeSet, NodeSet.keys (NodeSet.modify m k f) = NodeSet.keys m
  | [] => rfl
  | (k1, c1) :: rest => by
    have ih := NodeSet.keys_modify k f rest
    simp only [NodeSet.keys] at ih
    by_cases h : k = k1 <;> simp [NodeSet.modify, NodeSet.keys, h, ih]

theorem NodeSet.size_modify (k : Nat) (f : City → City) (m : NodeSet) :
    NodeSet.size (NodeSet.modify m k f) = NodeSet.size m := by
  have h := congrArg List.length (NodeSet.keys_modify k f m)
  simpa [NodeSet.keys, NodeSet.size] using h

theorem NodeSet.find?_isSome_iff (k : Nat) :
    ∀ m : NodeSet, (NodeSet.find? m k).isSome = true ↔ k ∈ NodeSet.keys m
  | [] => by simp [NodeSet.find?, NodeSet.keys]
  | (k1, c1) :: rest => by
    have ih := NodeSet.find?_isSome_iff k rest
    simp only [NodeSet.keys] at ih
    by_cases h : k = k1
    · simp [NodeSet.find?, NodeSet.keys, h]
    · simp [NodeSet.find?, NodeSet.keys, h, ih]

theorem NodeSet.find?_modify (k : Nat) (f : City → City) (j : Nat) :
    ∀ m : NodeSet, NodeSet.find? (NodeSet.modify m k f) j
      = if j = k then (NodeSet.find? m j).map f else NodeSet.find? m j
  | [] => by simp [NodeSet.find?, NodeSet.modify]
  | (k1, c1) :: rest => by
    have ih := NodeSet.find?_modify k f j rest
    by_cases h : k = k1
    · subst h
      by_cases hj : j = k <;> simp [NodeSet.find?, NodeSet.modify, hj]
    · by_cases hj1 : j = k1
      · subst hj1
        have : ¬ j = k := fun e => h e.symm
        simp [NodeSet.find?, NodeSet.modify, h, this]
      · simp [NodeSet.find?, NodeSet.modify, h, hj1, ih]

theorem NodeSet.keys_addRoad (m : NodeSet) (r : Road) :
    NodeSet.keys (addRoad m r) = NodeSet.keys m := by
  simp [addRoad, NodeSet.keys_modify]

theorem NodeSet.size_addRoad (m : NodeSet) (r : Road) :
    NodeSet.size (addRoad m r) = NodeSet.size m := by
  simp [addRoad, NodeSet.size_modify]

theorem NodeSet.keys_foldl_addRoad (rs : List Road) :
    ∀ m : NodeSet, NodeSet.keys (rs.foldl addRoad m) = NodeSet.keys m := by
  induction rs with
  | nil => intro m; rfl
  | cons r rs ih => intro m; rw [List.foldl_cons, ih, NodeSet.keys_addRoad]

theorem NodeSet.size_foldl_addRoad (rs : List Road) (m : NodeSet) :
    NodeSet.size (rs.foldl addRoad m) = NodeSet.size m := by
  have h := congrArg List.length (NodeSet.keys_foldl_addRoad rs m)
  simpa [NodeSet.keys, NodeSet.size] using h

theorem registerRoad_ok (cities : NodeSet) (r : Road)
    (hf : r.fromCity ∈ NodeSet.keys cities) (ht : r.toCity ∈ NodeSet.keys cities) :
    registerRoad cities r = .ok (addRoad cities r) := by
  have h1 := (NodeSet.find?_isSome_iff r.fromCity cities).2 hf
  have h2 := (NodeSet.find?_isSome_iff r.toCity
    (NodeSet.modify cities r.fromCity (fun c => { c with fromRoads := c.fromRoads ++ [r] }))).2
    (by rw [NodeSet.keys_modify]; exact ht)
  obtain ⟨c1, hc1⟩ := Option.isSome_iff_exists.1 h1
  obtain ⟨c2, hc2⟩ := Option.isSome_iff_exists.1 h2
  simp [registerRoad, hc1, hc2, addRoad]

theorem registerRoad_eq_ok (cities cities1 : NodeSet) (r : Road)
    (h : registerRoad cities r = .ok cities1) : cities1 = addRoad cities r := by
  unfold registerRoad at h
  split at h
  · cases h
  · simp only at h
    split at h
    · cases h
    · cases h
      rfl

theorem NodeSet.Dense.mem_keys {m : NodeSet} (h : NodeSet.Dense m) {k : Nat}
    (hk : k < NodeSet.size m) : k ∈ NodeSet.keys m := by
  rw [h]
  exact List.mem_range.2 hk

/-! ## One round of the road loop -/

theorem inRange_eq_false_iff (cityLimit : Nat) (l : Line) :
    inRange cityLimit l = false ↔ (l.fromCity > cityLimit ∨ l.toCity > cityLimit) := by
  simp only [inRange, Bool.and_eq_false_iff, decide_eq_false_iff_not]
  omega

theorem inRange_eq_true_iff (cityLimit : Nat) (l : Line) :
    inRange cityLimit l = true ↔ (l.fromCity ≤ cityLimit ∧ l.toCity ≤ cityLimit) := by
  simp [inRange]

theorem roadStep_rejected_int (cityLimit : Nat) (optional : Bool) (l : Line) (s : LoopState)
    (h : inRange cityLimit l = false) (h0 : INT_MIN < s.i) (h1 : s.i ≤ INT_MAX) :
    roadStep cityLimit optional l s
      = .ok { i := s.i, roads := s.roads, cities := s.cities,
              out := s.out ++ [Event.askRoad s.i, Event.roadError cityLimit] } := by
  have hc := (inRange_eq_false_iff cityLimit l).1 h
  have hd : intDecr s.i = .ok (s.i - 1) := intDecr_ok _ h0
  have hi : intIncr (s.i - 1) = .ok (s.i - 1 + 1) := intIncr_ok _ (by omega)
  simp [roadStep, hc, hd, hi]

theorem roadStep_rejected (cityLimit : Nat) (optional : Bool) (l : Line) (s : LoopState)
    (h : inRange cityLimit l = false) (h0 : 0 ≤ s.i) (h1 : s.i ≤ INT_MAX) :
    roadStep cityLimit optional l s
      = .ok { i := s.i, roads := s.roads, cities := s.cities,
              out := s.out ++ [Event.askRoad s.i, Event.roadError cityLimit] } :=
  roadStep_rejected_int cityLimit optional l s h (by unfold INT_MIN; omega) h1

theorem roadStep_accepted_optional (cityLimit : Nat) (l : Line) (s : LoopState)
    (h : inRange cityLimit l = true) (h1 : s.i < INT_MAX) :
    roadStep cityLimit true l s
      = .ok { i := s.i + 1, roads := s.roads ++ [roadOf true l], cities := s.cities,
              out := s.out ++ [Event.askRoad s.i,
                Event.newRoad true l.fromCity l.toCity l.length] } := by
  have hc : ¬ (l.fromCity > cityLimit ∨ l.toCity > cityLimit) := by
    have := (inRange_eq_true_iff cityLimit l).1 h
    omega
  simp [roadStep, hc, intIncr_ok _ h1, Road.new, roadOf]

theorem roadStep_accepted_mandatory (cityLimit : Nat) (l : Line) (s : LoopState)
    (h : inRange cityLimit l = true) (h1 : s.i < INT_MAX)
    (hf : l.fromCity ∈ NodeSet.keys s.cities) (ht : l.toCity ∈ NodeSet.keys s.cities) :
    roadStep cityLimit false l s
      = .ok { i := s.i + 1, roads := s.roads ++ [roadOf false l],
              cities := addRoad s.cities (roadOf false l),
              out := s.out ++ [Event.askRoad s.i,
                Event.newRoad false l.fromCity l.toCity l.length] } := by
  have hc : ¬ (l.fromCity > cityLimit ∨ l.toCity > cityLimit) := by
    have := (inRange_eq_true_iff cityLimit l).1 h
    omega
  have hr : registerRoad s.cities (roadOf false l) = .ok (addRoad s.cities (roadOf false l)) :=
    registerRoad_ok _ _ hf ht
  unfold roadOf at hr
  simp [roadStep, hc, intIncr_ok _ h1, Road.new, hr, roadOf]

theorem roadStep_accepted (cityLimit : Nat) (optional : Bool) (l : Line) (s : LoopState)
    (h : inRange cityLimit l = true) (h1 : s.i < INT_MAX)
    (hk : optional = false → ∀ k, k ≤ cityLimit → k ∈ NodeSet.keys s.cities) :
    roadStep cityLimit optional l s
      = .ok { i := s.i + 1, roads := s.roads ++ [roadOf optional l],
              cities := if optional then s.cities else addRoad s.cities (roadOf optional l),
              out := s.out ++ [Event.askRoad s.i,
                Event.newRoad optional l.fromCity l.toCity l.length] } := by
  have hr := (inRange_eq_true_iff cityLimit l).1 h
  cases optional with
  | true => simpa using roadStep_accepted_optional cityLimit l s h h1
  | false =>
    simpa using roadStep_accepted_mandatory cityLimit l s h h1
      (hk rfl _ hr.1) (hk rfl _ hr.2)

/-! ## The road loop -/

theorem acceptedLines_zero (cityLimit : Nat) (inp : List Line) :
    acceptedLines cityLimit 0 inp = [] := by
  simp [acceptedLines]

theorem acceptedLines_cons_rejected (cityLimit n : Nat) (l : Line) (rest : List Line)
    (h : inRange cityLimit l = false) :
    acceptedLines cityLimit n (l :: rest) = acceptedLines cityLimit n rest := by
  simp [acceptedLines, h]

theorem acceptedLines_cons_accepted (cityLimit n : Nat) (l : Line) (rest : List Line)
    (h : inRange cityLimit l = true) :
    acceptedLines cityLimit (n + 1) (l :: rest) = l :: acceptedLines cityLimit n rest := by
  simp [acceptedLines, h]

theorem citiesAfter_nil (optional : Bool) (cities : NodeSet) :
    citiesAfter optional cities [] = cities := by
  cases optional <;> rfl

theorem citiesAfter_cons (optional : Bool) (cities : NodeSet) (r : Road) (rs : List Road) :
    citiesAfter optional (if optional then cities else addRoad cities r) rs
      = citiesAfter optional cities (r :: rs) := by
  cases optional <;> rfl

theorem keys_citiesAfter (optional : Bool) (cities : NodeSet) (rs : List Road) :
    NodeSet.keys (citiesAfter optional cities rs) = NodeSet.keys cities := by
  cases optional
  · exact NodeSet.keys_foldl_addRoad rs cities
  · rfl

theorem size_citiesAfter (optional : Bool) (cities : NodeSet) (rs : List Road) :
    NodeSet.size (citiesAfter optional cities rs) = NodeSet.size cities := by
  have h := congrArg List.length (keys_citiesAfter optional cities rs)
  simpa [NodeSet.keys, NodeSet.size] using h

theorem roadLoop_exit (numRoads cityLimit : Nat) (optional : Bool) (inp : List Line)
    (s : LoopState) (h : ¬ toULong s.i < numRoads) :
    roadLoop numRoads cityLimit optional inp s = .ok (s, inp) := by
  cases inp <;> simp [roadLoop, h]

theorem roadLoop_cons (numRoads cityLimit : Nat) (optional : Bool) (l : Line)
    (rest : List Line) (s s1 : LoopState) (h : toULong s.i < numRoads)
    (hs : roadStep cityLimit optional l s = .ok s1) :
    roadLoop numRoads cityLimit optional (l :: rest) s
      = roadLoop numRoads cityLimit optional rest s1 := by
  simp [roadLoop, h, hs]

/-- The loop, started where `j` more entries can be accepted without the index
passing `numRoads` or `INT_MAX`, reaches the state in which the first `j`
in-range lines have been turned into roads, with the input after the `j`-th of
them still unread. -/
theorem roadLoop_advance (numRoads cityLimit : Nat) (optional : Bool) :
    ∀ (inp : List Line) (j : Nat) (s : LoopState),
      0 ≤ s.i → s.i + j ≤ INT_MAX → s.i + j ≤ numRoads →
      j ≤ (inp.filter (inRange cityLimit)).length →
      (optional = false → ∀ k, k ≤ cityLimit → k ∈ NodeSet.keys s.cities) →
      ∃ out, roadLoop numRoads cityLimit optional inp s
        = roadLoop numRoads cityLimit optional (unreadAfter cityLimit j inp)
            { i := s.i + j,
              roads := s.roads ++ (acceptedLines cityLimit j inp).map (roadOf optional),
              cities := citiesAfter optional s.cities
                ((acceptedLines cityLimit j inp).map (roadOf optional)),
              out := out }
  | inp, 0, s, _, _, _, _, _ => by
    refine ⟨s.out, ?_⟩
    simp [acceptedLines_zero, unreadAfter, citiesAfter_nil]
  | [], j + 1, s, _, _, _, hj, _ => by
    simp at hj
  | l :: rest, j + 1, s, h0, h1, h2, hj, hk => by
    have hmax : s.i < INT_MAX := by push_cast at h1; omega
    have hlt : toULong s.i < numRoads := by
      rw [toULong_of_nonneg s.i h0 (le_of_lt hmax)]
      push_cast at h2
      omega
    cases hl : inRange cityLimit l with
    | false =>
      have hstep := roadStep_rejected cityLimit optional l s hl h0 (le_of_lt hmax)
      rw [roadLoop_cons numRoads cityLimit optional l rest s _ hlt hstep]
      have hj1 : j + 1 ≤ (rest.filter (inRange cityLimit)).length := by
        simpa [List.filter, hl] using hj
      obtain ⟨out, ih⟩ := roadLoop_advance numRoads cityLimit optional rest (j + 1)
        { i := s.i, roads := s.roads, cities := s.cities,
          out := s.out ++ [Event.askRoad s.i, Event.roadError cityLimit] } h0 h1 h2 hj1 hk
      refine ⟨out, ?_⟩
      rw [ih]
      simp [unreadAfter, hl, acceptedLines_cons_rejected cityLimit (j + 1) l rest hl]
    | true =>
      have hstep := roadStep_accepted cityLimit optional l s hl hmax hk
      rw [roadLoop_cons numRoads cityLimit optional l rest s _ hlt hstep]
      have hj1 : j ≤ (rest.filter (inRange cityLimit)).length := by
        simpa [List.filter, hl] using hj
      obtain ⟨out, ih⟩ := roadLoop_advance numRoads cityLimit optional rest j
        { i := s.i + 1, roads := s.roads ++ [roadOf optional l],
          cities := if optional then s.cities else addRoad s.cities (roadOf optional l),
          out := s.out ++ [Event.askRoad s.i,
            Event.newRoad optional l.fromCity l.toCity l.length] }
        (by show 0 ≤ s.i + 1; omega)
        (by show s.i + 1 + (j : Int) ≤ INT_MAX; push_cast at h1; omega)
        (by show s.i + 1 + (j : Int) ≤ numRoads; push_cast at h2; omega)
        hj1
        (by
          intro ho k hk1
          subst ho
          show k ∈ NodeSet.keys (addRoad s.cities (roadOf false l))
          rw [NodeSet.keys_addRoad]
          exact hk rfl k hk1)
      refine ⟨out, ?_⟩
      rw [ih]
      have hi : s.i + 1 + (j : Int) = s.i + ((j + 1 : Nat) : Int) := by push_cast; omega
      simp only [unreadAfter, hl, if_true, acceptedLines_cons_accepted cityLimit j l rest hl,
        List.map_cons, citiesAfter_cons, List.append_assoc, List.singleton_append, hi]

theorem length_filter_unreadAfter (cityLimit : Nat) :
    ∀ (j : Nat) (inp : List Line),
      ((unreadAfter cityLimit j inp).filter (inRange cityLimit)).length
        = (inp.filter (inRange cityLimit)).length - j
  | 0, inp => by simp [unreadAfter]
  | j + 1, [] => by simp [unreadAfter]
  | j + 1, l :: rest => by
    cases hl : inRange cityLimit l with
    | false =>
      simp only [unreadAfter, hl, Bool.false_eq_true, if_false]
      rw [length_filter_unreadAfter cityLimit (j + 1) rest]
      simp [List.filter, hl]
    | true =>
      simp only [unreadAfter, hl, if_true]
      rw [length_filter_unreadAfter cityLimit j rest]
      simp [List.filter, hl]

theorem length_acceptedLines (cityLimit n : Nat) (inp : List Line)
    (h : n ≤ (inp.filter (inRange cityLimit)).length) :
    (acceptedLines cityLimit n inp).length = n := by
  simp [acceptedLines, h]

theorem inRange_of_mem_acceptedLines (cityLimit n : Nat) (inp : List Line) (l : Line)
    (h : l ∈ acceptedLines cityLimit n inp) : inRange cityLimit l = true := by
  have h1 : l ∈ inp.filter (inRange cityLimit) := List.mem_of_mem_take h
  exact (List.mem_filter.1 h1).2

/-- The whole loop, from index 0: when `numRoads` fits an `int` and the input
has `numRoads` in-range lines, the loop ends with exactly those lines turned
into roads and the input behind the last of them unread. -/
theorem roadLoop_complete (numRoads cityLimit : Nat) (optional : Bool) (inp : List Line)
    (cities : NodeSet) (out0 : List Event)
    (hn : (numRoads : Int) ≤ INT_MAX)
    (hinp : numRoads ≤ (inp.filter (inRange cityLimit)).length)
    (hk : optional = false → ∀ k, k ≤ cityLimit → k ∈ NodeSet.keys cities) :
    ∃ out, roadLoop numRoads cityLimit optional inp
        { i := 0, roads := [], cities := cities, out := out0 }
      = .ok ({ i := numRoads,
               roads := (acceptedLines cityLimit numRoads inp).map (roadOf optional),
               cities := citiesAfter optional cities
                 ((acceptedLines cityLimit numRoads inp).map (roadOf optional)),
               out := out },
             unreadAfter cityLimit numRoads inp) := by
  obtain ⟨out, h⟩ := roadLoop_advance numRoads cityLimit optional inp numRoads
    { i := 0, roads := [], cities := cities, out := out0 }
    (le_refl _) (by simpa using hn) (by simp) hinp hk
  refine ⟨out, ?_⟩
  rw [h]
  simp only [zero_add, List.nil_append]
  apply roadLoop_exit
  show ¬ toULong (numRoads : Int) < numRoads
  rw [toULong_of_nonneg _ (Int.natCast_nonneg _) hn]
  simp

theorem promptRoadDetails_complete (numRoads : Nat) (cities : NodeSet) (optional : Bool)
    (inp : List Line)
    (hn : (numRoads : Int) ≤ INT_MAX)
    (hinp : numRoads ≤ (inp.filter (inRange (ulongPred (NodeSet.size cities)))).length)
    (hk : optional = false →
      ∀ k, k ≤ ulongPred (NodeSet.size cities) → k ∈ NodeSet.keys cities) :
    ∃ out, promptRoadDetails numRoads cities optional inp
      = .ok ((acceptedLines (ulongPred (NodeSet.size cities)) numRoads inp).map
               (roadOf optional),
             citiesAfter optional cities
               ((acceptedLines (ulongPred (NodeSet.size cities)) numRoads inp).map
                 (roadOf optional)),
             unreadAfter (ulongPred (NodeSet.size cities)) numRoads inp, out) := by
  obtain ⟨out, h⟩ := roadLoop_complete numRoads (ulongPred (NodeSet.size cities)) optional
    inp cities (if numRoads > 0 then [Event.detailsHeader] else []) hn hinp hk
  exact ⟨out, by simp [promptRoadDetails, h]⟩

theorem NodeSet.Dense.mem_keys_of_le_limit {m : NodeSet} (h : NodeSet.Dense m)
    (h1 : 1 ≤ NodeSet.size m) (h2 : NodeSet.size m ≤ ULONG_MAX) :
    ∀ k, k ≤ ulongPred (NodeSet.size m) → k ∈ NodeSet.keys m := by
  intro k hk
  rw [ulongPred_of_pos _ h1 h2] at hk
  exact h.mem_keys (by omega)

/-! ## The index of the road loop is an `int` -/

theorem intIncr_overflow (i : Int) (h : ¬ i < INT_MAX) : intIncr i = .error Fault.intOverflow := by
  simp [intIncr, h]

theorem roadStep_overflow (cityLimit : Nat) (optional : Bool) (l : Line) (s : LoopState)
    (h : inRange cityLimit l = true) (h1 : s.i = INT_MAX)
    (hk : optional = false → ∀ k, k ≤ cityLimit → k ∈ NodeSet.keys s.cities) :
    roadStep cityLimit optional l s = .error Fault.intOverflow := by
  have hr := (inRange_eq_true_iff cityLimit l).1 h
  have hc : ¬ (l.fromCity > cityLimit ∨ l.toCity > cityLimit) := by omega
  have hi : intIncr s.i = .error Fault.intOverflow := intIncr_overflow _ (by omega)
  cases optional with
  | true => simp [roadStep, hc, hi]
  | false =>
    have hreg : registerRoad s.cities (roadOf false l)
        = .ok (addRoad s.cities (roadOf false l)) :=
      registerRoad_ok _ _ (hk rfl _ hr.1) (hk rfl _ hr.2)
    unfold roadOf at hreg
    simp [roadStep, hc, hi, Road.new, hreg]

theorem roadLoop_overflow (numRoads cityLimit : Nat) (optional : Bool)
    (hn : INT_MAX < (numRoads : Int)) :
    ∀ (inp : List Line) (s : LoopState), s.i = INT_MAX →
      1 ≤ (inp.filter (inRange cityLimit)).length →
      (optional = false → ∀ k, k ≤ cityLimit → k ∈ NodeSet.keys s.cities) →
      roadLoop numRoads cityLimit optional inp s = .error Fault.intOverflow
  | [], _, _, hinp, _ => by simp at hinp
  | l :: rest, s, hi, hinp, hk => by
    have h0 : 0 ≤ s.i := by rw [hi]; decide
    have hlt : toULong s.i < numRoads := by
      rw [toULong_of_nonneg s.i h0 (le_of_eq hi)]
      omega
    cases hl : inRange cityLimit l with
    | false =>
      have hstep := roadStep_rejected cityLimit optional l s hl h0 (le_of_eq hi)
      rw [roadLoop_cons numRoads cityLimit optional l rest s _ hlt hstep]
      exact roadLoop_overflow numRoads cityLimit optional hn rest _ hi
        (by simpa [List.filter, hl] using hinp) hk
    | true =>
      simp [roadLoop, hlt, roadStep_overflow cityLimit optional l s hl hi hk]

/-- When `numRoads` exceeds `INT_MAX` and the input holds at least `2 ^ 31`
in-range lines, the loop accepts `2 ^ 31` of them and then increments its `int`
index at `INT_MAX`. -/
theorem promptRoadDetails_overflow (numRoads : Nat) (cities : NodeSet) (optional : Bool)
    (inp : List Line)
    (hn : INT_MAX < (numRoads : Int))
    (hinp : 2 ^ 31 ≤ (inp.filter (inRange (ulongPred (NodeSet.size cities)))).length)
    (hk : optional = false →
      ∀ k, k ≤ ulongPred (NodeSet.size cities) → k ∈ NodeSet.keys cities) :
    promptRoadDetails numRoads cities optional inp = .error Fault.intOverflow := by
  have hmax : INT_MAX = ((2 ^ 31 - 1 : Nat) : Int) := by decide
  obtain ⟨out, h⟩ := roadLoop_advance numRoads (ulongPred (NodeSet.size cities)) optional inp
    (2 ^ 31 - 1) { i := 0, roads := [], cities := cities,
                   out := if numRoads > 0 then [Event.detailsHeader] else [] }
    (le_refl _) (by show (0 : Int) + ((2 ^ 31 - 1 : Nat) : Int) ≤ INT_MAX; rw [hmax]; omega)
    (by show (0 : Int) + ((2 ^ 31 - 1 : Nat) : Int) ≤ numRoads; rw [hmax] at hn; omega)
    (by omega) hk
  have h2 := roadLoop_overflow numRoads (ulongPred (NodeSet.size cities)) optional hn
    (unreadAfter (ulongPred (NodeSet.size cities)) (2 ^ 31 - 1) inp)
    { i := 0 + ((2 ^ 31 - 1 : Nat) : Int),
      roads := [] ++ (acceptedLines (ulongPred (NodeSet.size cities)) (2 ^ 31 - 1) inp).map
        (roadOf optional),
      cities := citiesAfter optional cities
        ((acceptedLines (ulongPred (NodeSet.size cities)) (2 ^ 31 - 1) inp).map
          (roadOf optional)),
      out := out }
    (by show (0 : Int) + ((2 ^ 31 - 1 : Nat) : Int) = INT_MAX; rw [hmax]; omega)
    (by rw [length_filter_unreadAfter]; omega)
    (by
      intro ho k hk1
      show k ∈ NodeSet.keys (citiesAfter optional cities _)
      rw [keys_citiesAfter]
      exact hk ho k hk1)
  unfold promptRoadDetails
  rw [h, h2]

/-! ## What registration does to each city -/

theorem cityWith_nil (k : Nat) (c : City) : cityWith k [] c = c := by
  simp [cityWith]

theorem cityWith_cons (k : Nat) (r : Road) (rs : List Road) (c : City) :
    cityWith k rs (cityWith k [r] c) = cityWith k (r :: rs) c := by
  by_cases h1 : r.fromCity = k <;> by_cases h2 : r.toCity = k <;>
    simp [cityWith, List.filter, h1, h2]

theorem NodeSet.find?_addRoad (m : NodeSet) (r : Road) (k : Nat) :
    NodeSet.find? (addRoad m r) k = (NodeSet.find? m k).map (cityWith k [r]) := by
  unfold addRoad
  rw [NodeSet.find?_modify, NodeSet.find?_modify]
  cases hf : NodeSet.find? m k with
  | none => by_cases h1 : k = r.toCity <;> by_cases h2 : k = r.fromCity <;> simp [h1, h2]
  | some c =>
    by_cases h1 : r.toCity = k
    · by_cases h2 : r.fromCity = k
      · simp [h1, h2, cityWith, List.filter]
      · have h2' : ¬ k = r.fromCity := fun e => h2 e.symm
        simp [h1, h2, h2', cityWith, List.filter]
    · have h1' : ¬ k = r.toCity := fun e => h1 e.symm
      by_cases h2 : r.fromCity = k
      · simp [h1, h1', h2, cityWith, List.filter]
      · have h2' : ¬ k = r.fromCity := fun e => h2 e.symm
        simp [h1, h1', h2, h2', cityWith, List.filter]

theorem NodeSet.find?_foldl_addRoad (k : Nat) (rs : List Road) :
    ∀ m : NodeSet, NodeSet.find? (rs.foldl addRoad m) k
      = (NodeSet.find? m k).map (cityWith k rs) := by
  induction rs with
  | nil =>
    intro m
    cases h : NodeSet.find? m k <;> simp [h, cityWith_nil]
  | cons r rs ih =>
    intro m
    rw [List.foldl_cons, ih, NodeSet.find?_addRoad]
    cases h : NodeSet.find? m k <;> simp [cityWith_cons]

/-! ## What a run that returns has done -/

theorem registerRoad_ok_mem (cities cities1 : NodeSet) (r : Road)
    (h : registerRoad cities r = .ok cities1) :
    r.fromCity ∈ NodeSet.keys cities ∧ r.toCity ∈ NodeSet.keys cities := by
  unfold registerRoad at h
  split at h
  · cases h
  · rename_i c1 hc1
    simp only at h
    split at h
    · cases h
    · rename_i c2 hc2
      constructor
      · exact (NodeSet.find?_isSome_iff _ _).1 (by rw [hc1]; rfl)
      · have := (NodeSet.find?_isSome_iff _ _).1 (by rw [hc2]; rfl)
        rwa [NodeSet.keys_modify] at this

theorem intIncr_eq_ok (i i1 : Int) (h : intIncr i = .ok i1) : i < INT_MAX ∧ i1 = i + 1 := by
  unfold intIncr at h
  split at h
  · cases h
    exact ⟨by assumption, rfl⟩
  · cases h

theorem intDecr_eq_ok (i i1 : Int) (h : intDecr i = .ok i1) : i1 = i - 1 := by
  unfold intDecr at h
  split at h
  · cases h
    rfl
  · cases h

/-- A round that ends normally either rejected the line, leaving index, roads and
cities as they were, or accepted it: the road of the line is appended to the
vector, a mandatory road is registered with both its cities, and the index
moves on by one. -/
theorem roadStep_ok_cases (cityLimit : Nat) (optional : Bool) (l : Line) (s s1 : LoopState)
    (h : roadStep cityLimit optional l s = .ok s1) :
    (inRange cityLimit l = false ∧ s1.i = s.i ∧ s1.roads = s.roads ∧ s1.cities = s.cities) ∨
    (inRange cityLimit l = true ∧ s.i < INT_MAX ∧ s1.i = s.i + 1 ∧
      s1.roads = s.roads ++ [roadOf optional l] ∧
      s1.cities = (if optional then s.cities else addRoad s.cities (roadOf optional l)) ∧
      (optional = false →
        l.fromCity ∈ NodeSet.keys s.cities ∧ l.toCity ∈ NodeSet.keys s.cities)) := by
  cases hl : inRange cityLimit l with
  | false =>
    left
    have hc := (inRange_eq_false_iff cityLimit l).1 hl
    simp only [roadStep, hc, if_true] at h
    cases hd : intDecr s.i with
    | error e => simp [hd] at h
    | ok i1 =>
      cases hi : intIncr i1 with
      | error e => simp [hd, hi] at h
      | ok i2 =>
        simp only [hd, hi, Except.ok.injEq] at h
        have e1 := intDecr_eq_ok _ _ hd
        have e2 := (intIncr_eq_ok _ _ hi).2
        subst h
        refine ⟨rfl, ?_, rfl, rfl⟩
        show i2 = s.i
        omega
  | true =>
    right
    have hr := (inRange_eq_true_iff cityLimit l).1 hl
    have hc : ¬ (l.fromCity > cityLimit ∨ l.toCity > cityLimit) := by omega
    simp only [roadStep, hc, if_false] at h
    cases optional with
    | true =>
      cases hi : intIncr s.i with
      | error e => simp [hi] at h
      | ok i2 =>
        simp only [hi, if_true, Except.ok.injEq] at h
        have e2 := intIncr_eq_ok _ _ hi
        subst h
        exact ⟨rfl, e2.1, e2.2, rfl, rfl, fun ho => by cases ho⟩
    | false =>
      cases hreg : registerRoad s.cities (Road.new l.toCity l.fromCity l.length false) with
      | error e => simp [hreg] at h
      | ok cities1 =>
        cases hi : intIncr s.i with
        | error e => simp [hreg, hi] at h
        | ok i2 =>
          simp only [hreg, hi, Bool.false_eq_true, if_false, Except.ok.injEq] at h
          have e2 := intIncr_eq_ok _ _ hi
          have e3 := registerRoad_eq_ok _ _ _ hreg
          have e4 := registerRoad_ok_mem _ _ _ hreg
          subst h
          exact ⟨rfl, e2.1, e2.2, rfl, e3, fun _ => e4⟩

theorem roadLoop_eq_ok_cons (numRoads cityLimit : Nat) (optional : Bool) (l : Line)
    (rest0 : List Line) (s s1 : LoopState) (rest : List Line)
    (hlt : toULong s.i < numRoads)
    (h : roadLoop numRoads cityLimit optional (l :: rest0) s = .ok (s1, rest)) :
    ∃ s2, roadStep cityLimit optional l s = .ok s2 ∧
      roadLoop numRoads cityLimit optional rest0 s2 = .ok (s1, rest) := by
  simp only [roadLoop, hlt, if_true] at h
  cases hs : roadStep cityLimit optional l s with
  | error e => simp [hs] at h
  | ok s2 => exact ⟨s2, rfl, by simpa [hs] using h⟩

/-- Whenever the loop returns, it returns with index `numRoads`, having turned
the first `numRoads - i` in-range lines of its input into roads (registered when
mandatory) and read the input up to the last of them. -/
theorem roadLoop_ok_inv (numRoads cityLimit : Nat) (optional : Bool) :
    ∀ (inp : List Line) (s s1 : LoopState) (rest : List Line),
      0 ≤ s.i → s.i ≤ INT_MAX → s.i ≤ numRoads →
      roadLoop numRoads cityLimit optional inp s = .ok (s1, rest) →
      ∃ j : Nat, s.i + j = numRoads ∧ (numRoads : Int) ≤ INT_MAX ∧
        j ≤ (inp.filter (inRange cityLimit)).length ∧
        s1.i = numRoads ∧
        s1.roads = s.roads ++ (acceptedLines cityLimit j inp).map (roadOf optional) ∧
        s1.cities = citiesAfter optional s.cities
          ((acceptedLines cityLimit j inp).map (roadOf optional)) ∧
        rest = unreadAfter cityLimit j inp ∧
        (optional = false → ∀ l ∈ acceptedLines cityLimit j inp,
          l.fromCity ∈ NodeSet.keys s.cities ∧ l.toCity ∈ NodeSet.keys s.cities) := by
  intro inp
  induction inp with
  | nil =>
    intro s s1 rest h0 h1 h2 h
    have hu := toULong_of_nonneg s.i h0 h1
    by_cases hlt : toULong s.i < numRoads
    · simp [roadLoop, hlt] at h
    · simp only [roadLoop, hlt, if_false, Except.ok.injEq, Prod.mk.injEq] at h
      obtain ⟨rfl, rfl⟩ := h
      have he : s.i = numRoads := by omega
      refine ⟨0, by simpa using he, by omega, by simp, he, ?_, ?_, rfl, ?_⟩
      · simp [acceptedLines_zero]
      · simp [acceptedLines_zero, citiesAfter_nil]
      · intro _ l hl
        simp [acceptedLines_zero] at hl
  | cons l rest0 ih =>
    intro s s1 rest h0 h1 h2 h
    have hu := toULong_of_nonneg s.i h0 h1
    by_cases hlt : toULong s.i < numRoads
    · obtain ⟨s2, hstep, hloop⟩ :=
        roadLoop_eq_ok_cons numRoads cityLimit optional l rest0 s s1 rest hlt h
      rcases roadStep_ok_cases cityLimit optional l s s2 hstep with
        ⟨hl, hi, hr, hc⟩ | ⟨hl, hmax, hi, hr, hc, hk⟩
      · obtain ⟨j, e1, e2, e3, e4, e5, e6, e7, e8⟩ := ih s2 s1 rest
          (by omega) (by omega) (by omega) hloop
        rw [hi] at e1
        rw [hr] at e5
        rw [hc] at e6 e8
        obtain ⟨j1, rfl⟩ : ∃ j1, j = j1 + 1 := ⟨j - 1, by omega⟩
        refine ⟨j1 + 1, e1, e2, ?_, e4, ?_, ?_, ?_, ?_⟩
        · simpa [List.filter, hl] using e3
        · rw [acceptedLines_cons_rejected _ _ _ _ hl]; exact e5
        · rw [acceptedLines_cons_rejected _ _ _ _ hl]; exact e6
        · simpa [unreadAfter, hl] using e7
        · rw [acceptedLines_cons_rejected _ _ _ _ hl]; exact e8
      · obtain ⟨j, e1, e2, e3, e4, e5, e6, e7, e8⟩ := ih s2 s1 rest
          (by omega) (by omega) (by omega) hloop
        rw [hi] at e1
        rw [hr] at e5
        rw [hc] at e6
        refine ⟨j + 1, by push_cast; omega, e2, ?_, e4, ?_, ?_, ?_, ?_⟩
        · simpa [List.filter, hl] using e3
        · rw [acceptedLines_cons_accepted _ _ _ _ hl, e5]
          simp
        · rw [acceptedLines_cons_accepted _ _ _ _ hl, e6, List.map_cons, citiesAfter_cons]
        · simpa [unreadAfter, hl] using e7
        · intro ho l1 hl1
          rw [acceptedLines_cons_accepted _ _ _ _ hl] at hl1
          rcases List.mem_cons.1 hl1 with rfl | hmem
          · exact hk ho
          · have := e8 ho l1 hmem
            rw [hc] at this
            subst ho
            simpa [NodeSet.keys_addRoad] using this
    · simp only [roadLoop, hlt, if_false, Except.ok.injEq, Prod.mk.injEq] at h
      obtain ⟨rfl, rfl⟩ := h
      have he : s.i = numRoads := by omega
      refine ⟨0, by simpa using he, by omega, by simp, he, ?_, ?_, rfl, ?_⟩
      · simp [acceptedLines_zero]
      · simp [acceptedLines_zero, citiesAfter_nil]
      · intro _ l1 hl1
        simp [acceptedLines_zero] at hl1

/-- Whenever `promptRoadDetails` returns, `numRoads` fits an `int`, the input
held `numRoads` in-range lines, the vector returned is those lines as roads, in
input order, and the cities are the ones passed in with the mandatory roads
registered. -/
theorem promptRoadDetails_ok_inv (numRoads : Nat) (cities : NodeSet) (optional : Bool)
    (inp : List Line) (roads : List Road) (cities1 : NodeSet) (rest : List Line)
    (out : List Event)
    (h : promptRoadDetails numRoads cities optional inp = .ok (roads, cities1, rest, out)) :
    (numRoads : Int) ≤ INT_MAX ∧
    numRoads ≤ (inp.filter (inRange (ulongPred (NodeSet.size cities)))).length ∧
    roads = (acceptedLines (ulongPred (NodeSet.size cities)) numRoads inp).map
      (roadOf optional) ∧
    cities1 = citiesAfter optional cities roads ∧
    rest = unreadAfter (ulongPred (NodeSet.size cities)) numRoads inp ∧
    (optional = false → ∀ r ∈ roads,
      r.fromCity ∈ NodeSet.keys cities ∧ r.toCity ∈ NodeSet.keys cities) := by
  unfold promptRoadDetails at h
  split at h
  · cases h
  · rename_i s1 rest1 hloop
    simp only [Except.ok.injEq, Prod.mk.injEq] at h
    obtain ⟨rfl, rfl, rfl, rfl⟩ := h
    obtain ⟨j, e1, e2, e3, _, e5, e6, e7, e8⟩ := roadLoop_ok_inv numRoads
      (ulongPred (NodeSet.size cities)) optional inp _ s1 rest1
      (le_refl _) (by show (0 : Int) ≤ INT_MAX; decide) (by simp) hloop
    have hj : j = numRoads := by
      simp only [zero_add] at e1
      exact_mod_cast e1
    subst hj
    simp only [List.nil_append] at e5
    refine ⟨e2, e3, e5, ?_, e7, ?_⟩
    · rw [e6, e5]
    · intro ho r hr
      rw [e5] at hr
      obtain ⟨l, hl, rfl⟩ := List.mem_map.1 hr
      exact e8 ho l hl

/-! ## `promptRoadDetails`: the number of roads returned -/

theorem insertCities_dense (c : Int) : NodeSet.Dense (insertCities c) := by
  unfold NodeSet.Dense
  rw [insertCities_keys, insertCities_size]

/-- For a count that fits an `int`, a dense node set of at least two cities,
either classification and an input with at least `numRoads` in-range lines,
`promptRoadDetails` returns exactly `numRoads` roads, every one with both
endpoints at most `numCities - 1` and with the classification asked for; the
rejected lines in between are not counted. -/
theorem promptRoadDetails_exactly_numRoads (numRoads : Nat) (cities : NodeSet)
    (optional : Bool) (inp : List Line)
    (hn : (numRoads : Int) ≤ INT_MAX)
    (hd : NodeSet.Dense cities) (h2 : 2 ≤ NodeSet.size cities)
    (hmax : NodeSet.size cities ≤ ULONG_MAX)
    (hinp : numRoads ≤ (inp.filter (inRange (NodeSet.size cities - 1))).length) :
    ∃ roads cities1 rest out,
      promptRoadDetails numRoads cities optional inp = .ok (roads, cities1, rest, out)
      ∧ roads.length = numRoads
      ∧ roads = ((inp.filter (inRange (NodeSet.size cities - 1))).take numRoads).map
          (roadOf optional)
      ∧ ∀ r ∈ roads, r.fromCity ≤ NodeSet.size cities - 1
          ∧ r.toCity ≤ NodeSet.size cities - 1 ∧ r.isOptional = optional := by
  have hl : ulongPred (NodeSet.size cities) = NodeSet.size cities - 1 :=
    ulongPred_of_pos _ (by omega) hmax
  obtain ⟨out, h⟩ := promptRoadDetails_complete numRoads cities optional inp hn
    (by rw [hl]; exact hinp)
    (fun _ => hd.mem_keys_of_le_limit (by omega) hmax)
  rw [hl] at h
  refine ⟨_, _, _, out, h, ?_, rfl, ?_⟩
  · rw [List.length_map]
    exact length_acceptedLines _ _ _ hinp
  · intro r hr
    obtain ⟨l, hl1, rfl⟩ := List.mem_map.1 hr
    have := (inRange_eq_true_iff _ _).1 (inRange_of_mem_acceptedLines _ _ _ _ hl1)
    exact ⟨this.1, this.2, rfl⟩

/-- C3, where the code departs from it: asked for `2 ^ 31 + 1` roads and given
`2 ^ 31 + 1` in-range lines `0:1:1` over two cities, `promptRoadDetails` does
not return that many roads: after the `2 ^ 31`-th road its `int` index is
incremented at `INT_MAX`, which is undefined. -/
theorem promptRoadDetails_int_index_overflow :
    promptRoadDetails (2 ^ 31 + 1) (insertCities 2) false
        (List.replicate (2 ^ 31 + 1) { fromCity := 0, toCity := 1, length := 1 })
      = .error Fault.intOverflow := by
  apply promptRoadDetails_overflow
  · decide
  · have hs : ulongPred (NodeSet.size (insertCities 2)) = 1 := by decide
    have hr : inRange 1 { fromCity := 0, toCity := 1, length := 1 } = true := by decide
    rw [hs, List.filter_replicate, hr, if_pos rfl, List.length_replicate]
    omega
  · intro _
    exact (insertCities_dense 2).mem_keys_of_le_limit (by decide) (by decide)

/-! ## `promptRoadDetails`: a rejected line -/

/-- C4: in any round of the loop of `promptRoadDetails` (at least one city, the
index an `int` above `INT_MIN`), a line `from:to:length` with
`from > numCities - 1` or `to > numCities - 1` is rejected: the round ends with
the same roads and the same cities, an error citing the bound `numCities - 1` is
logged after the prompt, and the index is what it was; so the loop goes on with
the next line from the same index, the number of roads to collect unchanged. -/
theorem roadStep_out_of_range_rejected (numRoads : Nat) (optional : Bool) (l : Line)
    (rest : List Line) (s : LoopState)
    (hsize : 1 ≤ NodeSet.size s.cities) (hmax : NodeSet.size s.cities ≤ ULONG_MAX)
    (hout : l.fromCity > NodeSet.size s.cities - 1 ∨ l.toCity > NodeSet.size s.cities - 1)
    (h0 : INT_MIN < s.i) (h1 : s.i ≤ INT_MAX) :
    roadStep (ulongPred (NodeSet.size s.cities)) optional l s
        = .ok { i := s.i, roads := s.roads, cities := s.cities,
                out := s.out ++ [Event.askRoad s.i,
                  Event.roadError (NodeSet.size s.cities - 1)] }
    ∧ (toULong s.i < numRoads →
        roadLoop numRoads (ulongPred (NodeSet.size s.cities)) optional (l :: rest) s
          = roadLoop numRoads (ulongPred (NodeSet.size s.cities)) optional rest
              { i := s.i, roads := s.roads, cities := s.cities,
                out := s.out ++ [Event.askRoad s.i,
                  Event.roadError (NodeSet.size s.cities - 1)] }) := by
  have hl : ulongPred (NodeSet.size s.cities) = NodeSet.size s.cities - 1 :=
    ulongPred_of_pos _ hsize hmax
  have hr : inRange (NodeSet.size s.cities - 1) l = false :=
    (inRange_eq_false_iff _ _).2 hout
  rw [hl]
  have hstep := roadStep_rejected_int (NodeSet.size s.cities - 1) optional l s hr h0 h1
  exact ⟨hstep, fun hlt => roadLoop_cons numRoads _ optional l rest s _ hlt hstep⟩

/-- C4, the scenario of the specification: with three cities the line `5:1:5`,
read at index 0, is rejected with an error citing the bound 2, and the loop goes
on from index 0 with the lines that follow. -/
theorem roadStep_out_of_range_rejected_witness :
    roadStep (ulongPred 3) false { fromCity := 5, toCity := 1, length := 5 }
        { i := 0, roads := [], cities := insertCities 3, out := [Event.detailsHeader] }
        = .ok { i := 0, roads := [], cities := insertCities 3,
                out := [Event.detailsHeader] ++ [Event.askRoad 0, Event.roadError 2] }
    ∧ roadLoop 2 (ulongPred 3) false
        [{ fromCity := 5, toCity := 1, length := 5 }, { fromCity := 0, toCity := 1, length := 5 }]
        { i := 0, roads := [], cities := insertCities 3, out := [Event.detailsHeader] }
        = roadLoop 2 (ulongPred 3) false [{ fromCity := 0, toCity := 1, length := 5 }]
            { i := 0, roads := [], cities := insertCities 3,
              out := [Event.detailsHeader] ++ [Event.askRoad 0, Event.roadError 2] } :=
  have h := roadStep_out_of_range_rejected 2 false { fromCity := 5, toCity := 1, length := 5 }
    [{ fromCity := 0, toCity := 1, length := 5 }]
    { i := 0, roads := [], cities := insertCities 3, out := [Event.detailsHeader] }
    (by decide) (by decide) (by decide) (by decide) (by decide)
  ⟨h.1, h.2 (by decide)⟩

/-! ## `promptRoadDetails`: registration of mandatory roads -/

theorem NodeSet.find?_some_of_mem_keys (m : NodeSet) (k : Nat) (h : k ∈ NodeSet.keys m) :
    ∃ c, NodeSet.find? m k = some c :=
  Option.isSome_iff_exists.1 ((NodeSet.find?_isSome_iff k m).2 h)

theorem cityWith_fromRoads_self (r : Road) (c : City) :
    (cityWith r.fromCity [r] c).fromRoads = c.fromRoads ++ [r] := by
  simp [cityWith, List.filter]

theorem cityWith_toRoads_self (r : Road) (c : City) :
    (cityWith r.toCity [r] c).toRoads = c.toRoads ++ [r] := by
  simp [cityWith, List.filter]

/-- C5: whenever `promptRoadDetails` returns from a run with the mandatory flag,
every road `r` it returns is in the outgoing list of the city under key
`r.from` (the city with that id, when keys are ids) and in the incoming list of
the city under key `r.to`; each city's lists are its lists before the call
followed by the returned roads that leave it, respectively reach it, in the
order of acceptance; and in the round that accepts a line the new road is
appended at the end of both lists. -/
theorem promptRoadDetails_mandatory_registered (numRoads : Nat) (cities : NodeSet)
    (inp : List Line) (roads : List Road) (cities1 : NodeSet) (rest : List Line)
    (out : List Event)
    (hid : ∀ k c, NodeSet.find? cities k = some c → c.id = k)
    (h : promptRoadDetails numRoads cities false inp = .ok (roads, cities1, rest, out)) :
    (∀ r ∈ roads,
      (∃ c, NodeSet.find? cities1 r.fromCity = some c ∧ c.id = r.fromCity ∧ r ∈ c.fromRoads) ∧
      (∃ c, NodeSet.find? cities1 r.toCity = some c ∧ c.id = r.toCity ∧ r ∈ c.toRoads))
    ∧ (∀ k c, NodeSet.find? cities k = some c →
        ∃ c1, NodeSet.find? cities1 k = some c1
          ∧ c1.fromRoads = c.fromRoads ++ roads.filter (fun r => decide (r.fromCity = k))
          ∧ c1.toRoads = c.toRoads ++ roads.filter (fun r => decide (r.toCity = k)))
    ∧ (∀ (cityLimit : Nat) (l : Line) (s s1 : LoopState),
        inRange cityLimit l = true → roadStep cityLimit false l s = .ok s1 →
        s1.roads = s.roads ++ [roadOf false l]
        ∧ (∃ c c1, NodeSet.find? s.cities l.fromCity = some c
            ∧ NodeSet.find? s1.cities l.fromCity = some c1
            ∧ c1.fromRoads = c.fromRoads ++ [roadOf false l])
        ∧ (∃ c c1, NodeSet.find? s.cities l.toCity = some c
            ∧ NodeSet.find? s1.cities l.toCity = some c1
            ∧ c1.toRoads = c.toRoads ++ [roadOf false l])) := by
  obtain ⟨_, _, _, hc, _, hk⟩ :=
    promptRoadDetails_ok_inv numRoads cities false inp roads cities1 rest out h
  have hfind : ∀ k, NodeSet.find? cities1 k = (NodeSet.find? cities k).map (cityWith k roads) := by
    intro k
    rw [hc]
    exact NodeSet.find?_foldl_addRoad k roads cities
  refine ⟨?_, ?_, ?_⟩
  · intro r hr
    obtain ⟨hf, ht⟩ := hk rfl r hr
    obtain ⟨cf, hcf⟩ := NodeSet.find?_some_of_mem_keys cities _ hf
    obtain ⟨ct, hct⟩ := NodeSet.find?_some_of_mem_keys cities _ ht
    constructor
    · refine ⟨cityWith r.fromCity roads cf, by rw [hfind, hcf]; rfl, hid _ cf hcf, ?_⟩
      apply List.mem_append_right
      exact List.mem_filter.2 ⟨hr, by simp⟩
    · refine ⟨cityWith r.toCity roads ct, by rw [hfind, hct]; rfl, hid _ ct hct, ?_⟩
      apply List.mem_append_right
      exact List.mem_filter.2 ⟨hr, by simp⟩
  · intro k c hkc
    exact ⟨cityWith k roads c, by rw [hfind, hkc]; rfl, rfl, rfl⟩
  · intro cityLimit l s s1 hl hstep
    rcases roadStep_ok_cases cityLimit false l s s1 hstep with
      ⟨hl1, _⟩ | ⟨_, _, _, hr, hcs, hmem⟩
    · rw [hl] at hl1
      cases hl1
    · obtain ⟨hf, ht⟩ := hmem rfl
      obtain ⟨cf, hcf⟩ := NodeSet.find?_some_of_mem_keys s.cities _ hf
      obtain ⟨ct, hct⟩ := NodeSet.find?_some_of_mem_keys s.cities _ ht
      have hcs1 : s1.cities = addRoad s.cities (roadOf false l) := by simpa using hcs
      refine ⟨hr, ⟨cf, cityWith l.fromCity [roadOf false l] cf, hcf, ?_, ?_⟩,
        ⟨ct, cityWith l.toCity [roadOf false l] ct, hct, ?_, ?_⟩⟩
      · rw [hcs1, NodeSet.find?_addRoad, hcf]; rfl
      · exact cityWith_fromRoads_self (roadOf false l) cf
      · rw [hcs1, NodeSet.find?_addRoad, hct]; rfl
      · exact cityWith_toRoads_self (roadOf false l) ct

theorem NodeSet.mem_of_find? :
    ∀ (m : NodeSet) (k : Nat) (c : City), NodeSet.find? m k = some c → (k, c) ∈ m
  | [], _, _, h => by simp [NodeSet.find?] at h
  | (k1, c1) :: rest, k, c, h => by
    by_cases hk : k = k1
    · subst hk
      simp only [NodeSet.find?, if_true, Option.some.injEq] at h
      subst h
      exact List.mem_cons_self _ _
    · simp only [NodeSet.find?, hk, if_false] at h
      exact List.mem_cons_of_mem _ (NodeSet.mem_of_find? rest k c h)

theorem insertCities_id (n : Int) (k : Nat) (c : City)
    (h : NodeSet.find? (insertCities n) k = some c) : c.id = k := by
  have hm := NodeSet.mem_of_find? _ _ _ h
  rw [insertCities_eq] at hm
  obtain ⟨i, _, hi⟩ := List.mem_map.1 hm
  cases hi
  rfl

/-- C5, on the scenario of the specification: three cities, the mandatory lines
`0:1:5` and `1:2:3`; both roads are returned and each is in the outgoing list of
its `from` city and the incoming list of its `to` city. -/
theorem promptRoadDetails_mandatory_registered_witness :
    promptRoadDetails 2 (insertCities 3) false
        [{ fromCity := 0, toCity := 1, length := 5 }, { fromCity := 1, toCity := 2, length := 3 }]
      = .ok ([⟨0, 1, 5, false⟩, ⟨1, 2, 3, false⟩],
             [(0, ⟨0, [⟨0, 1, 5, false⟩], []⟩),
              (1, ⟨1, [⟨1, 2, 3, false⟩], [⟨0, 1, 5, false⟩]⟩),
              (2, ⟨2, [], [⟨1, 2, 3, false⟩]⟩)],
             [],
             [Event.detailsHeader, Event.askRoad 0, Event.newRoad false 0 1 5,
              Event.askRoad 1, Event.newRoad false 1 2 3])
    ∧ ((∃ c, NodeSet.find?
            [(0, ⟨0, [⟨0, 1, 5, false⟩], []⟩),
             (1, ⟨1, [⟨1, 2, 3, false⟩], [⟨0, 1, 5, false⟩]⟩),
             (2, ⟨2, [], [⟨1, 2, 3, false⟩]⟩)] (Road.mk 0 1 5 false).fromCity = some c
          ∧ c.id = (Road.mk 0 1 5 false).fromCity ∧ Road.mk 0 1 5 false ∈ c.fromRoads)
      ∧ (∃ c, NodeSet.find?
            [(0, ⟨0, [⟨0, 1, 5, false⟩], []⟩),
             (1, ⟨1, [⟨1, 2, 3, false⟩], [⟨0, 1, 5, false⟩]⟩),
             (2, ⟨2, [], [⟨1, 2, 3, false⟩]⟩)] (Road.mk 0 1 5 false).toCity = some c
          ∧ c.id = (Road.mk 0 1 5 false).toCity ∧ Road.mk 0 1 5 false ∈ c.toRoads)) :=
  ⟨rfl,
   (promptRoadDetails_mandatory_registered 2 (insertCities 3)
      [{ fromCity := 0, toCity := 1, length := 5 }, { fromCity := 1, toCity := 2, length := 3 }]
      [⟨0, 1, 5, false⟩, ⟨1, 2, 3, false⟩]
      [(0, ⟨0, [⟨0, 1, 5, false⟩], []⟩),
       (1, ⟨1, [⟨1, 2, 3, false⟩], [⟨0, 1, 5, false⟩]⟩),
       (2, ⟨2, [], [⟨1, 2, 3, false⟩]⟩)]
      []
      [Event.detailsHeader, Event.askRoad 0, Event.newRoad false 0 1 5,
       Event.askRoad 1, Event.newRoad false 1 2 3]
      (insertCities_id 3) rfl).1 ⟨0, 1, 5, false⟩ (List.mem_cons_self _ _)⟩

/-! ## `promptRoadDetails`: optional roads -/

/-- C6: whenever `promptRoadDetails` returns from a run with the optional flag,
the cities are exactly the cities it was given: no outgoing or incoming list has
changed.  The roads it returns are all optional, and so are in no adjacency list
of a node set whose lists held mandatory roads only (or nothing). -/
theorem promptRoadDetails_optional_frame (numRoads : Nat) (cities : NodeSet)
    (inp : List Line) (roads : List Road) (cities1 : NodeSet) (rest : List Line)
    (out : List Event)
    (h : promptRoadDetails numRoads cities true inp = .ok (roads, cities1, rest, out)) :
    cities1 = cities
    ∧ (∀ r ∈ roads, r.isOptional = true)
    ∧ ((∀ p ∈ cities, ∀ x ∈ p.2.fromRoads ++ p.2.toRoads, x.isOptional = false) →
        ∀ r ∈ roads, ∀ p ∈ cities1, r ∉ p.2.fromRoads ∧ r ∉ p.2.toRoads) := by
  obtain ⟨_, _, hr, hc, _, _⟩ :=
    promptRoadDetails_ok_inv numRoads cities true inp roads cities1 rest out h
  have hc1 : cities1 = cities := by rw [hc]; rfl
  have hopt : ∀ r ∈ roads, r.isOptional = true := by
    intro r hmem
    rw [hr] at hmem
    obtain ⟨l, _, rfl⟩ := List.mem_map.1 hmem
    rfl
  refine ⟨hc1, hopt, ?_⟩
  intro hmand r hmem p hp
  rw [hc1] at hp
  have ho := hopt r hmem
  constructor
  · intro hin
    have := hmand p hp r (List.mem_append_left _ hin)
    rw [ho] at this
    cases this
  · intro hin
    have := hmand p hp r (List.mem_append_right _ hin)
    rw [ho] at this
    cases this

/-- C6, on a concrete run: three cities, two optional roads asked for, the lines
`0:1:5`, `7:1:5` (rejected) and `1:2:3`; the two roads are returned and every
city still has empty lists. -/
theorem promptRoadDetails_optional_frame_witness :
    promptRoadDetails 2 (insertCities 3) true
        [{ fromCity := 0, toCity := 1, length := 5 }, { fromCity := 7, toCity := 1, length := 5 },
         { fromCity := 1, toCity := 2, length := 3 }]
      = .ok ([⟨0, 1, 5, true⟩, ⟨1, 2, 3, true⟩],
             [(0, ⟨0, [], []⟩), (1, ⟨1, [], []⟩), (2, ⟨2, [], []⟩)],
             [],
             [Event.detailsHeader, Event.askRoad 0, Event.newRoad true 0 1 5,
              Event.askRoad 1, Event.roadError 2, Event.askRoad 1, Event.newRoad true 1 2 3])
    ∧ ([(0, ⟨0, [], []⟩), (1, ⟨1, [], []⟩), (2, ⟨2, [], []⟩)] : NodeSet) = insertCities 3 :=
  ⟨rfl,
   (promptRoadDetails_optional_frame 2 (insertCities 3)
      [{ fromCity := 0, toCity := 1, length := 5 }, { fromCity := 7, toCity := 1, length := 5 },
       { fromCity := 1, toCity := 2, length := 3 }]
      [⟨0, 1, 5, true⟩, ⟨1, 2, 3, true⟩]
      [(0, ⟨0, [], []⟩), (1, ⟨1, [], []⟩), (2, ⟨2, [], []⟩)]
      []
      [Event.detailsHeader, Event.askRoad 0, Event.newRoad true 0 1 5,
       Event.askRoad 1, Event.roadError 2, Event.askRoad 1, Event.newRoad true 1 2 3]
      rfl).1⟩

/-! ## `promptLimit` -/

theorem promptLimitLoop_spec (cityLimit : Nat) (start : Bool) (l : Line) (rest : List Line)
    (hl : l.lu ≤ cityLimit) :
    ∀ (rejected : List Line) (out : List Event), (∀ x ∈ rejected, x.lu > cityLimit) →
      promptLimitLoop cityLimit start (rejected ++ l :: rest) out
        = .ok (l.lu, rest,
            out ++ (rejected.map
                (fun _ => [Event.askLimit start, Event.limitError start cityLimit])).flatten
              ++ [Event.askLimit start, Event.limitChosen start l.lu])
  | [], out, _ => by
    have : ¬ l.lu > cityLimit := by omega
    simp [promptLimitLoop, this]
  | x :: xs, out, h => by
    have hx : x.lu > cityLimit := h x (List.mem_cons_self _ _)
    have ih := promptLimitLoop_spec cityLimit start l rest hl xs
      (out ++ [Event.askLimit start, Event.limitError start cityLimit])
      (fun y hy => h y (List.mem_cons_of_mem _ hy))
    simp [promptLimitLoop, hx, ih]

theorem promptLimitLoop_le (cityLimit : Nat) (start : Bool) :
    ∀ (inp : List Line) (out : List Event) (id : Nat) (rest : List Line) (out1 : List Event),
      promptLimitLoop cityLimit start inp out = .ok (id, rest, out1) → id ≤ cityLimit
  | [], _, _, _, _, h => by simp [promptLimitLoop] at h
  | l :: inp, out, id, rest, out1, h => by
    by_cases hl : l.lu > cityLimit
    · simp only [promptLimitLoop, hl, if_true] at h
      exact promptLimitLoop_le cityLimit start inp _ id rest out1 h
    · simp only [promptLimitLoop, hl, if_false, Except.ok.injEq, Prod.mk.injEq] at h
      omega

/-- C7: for `numCities ≥ 1`, either role and any ids, `promptLimit` rejects
every id above `numCities - 1` (a prompt and an error citing that bound for
each) and returns the first id that is at most `numCities - 1`, leaving the
input behind it unread; and whatever the input, an id it returns is at most
`numCities - 1`. -/
theorem promptLimit_first_in_range (numCities : Nat) (start : Bool) (rejected : List Line)
    (l : Line) (rest : List Line)
    (h1 : 1 ≤ numCities) (hmax : numCities ≤ ULONG_MAX)
    (hrej : ∀ x ∈ rejected, x.lu > numCities - 1) (hl : l.lu ≤ numCities - 1) :
    promptLimit numCities start (rejected ++ l :: rest)
        = .ok (l.lu, rest,
            (rejected.map
                (fun _ => [Event.askLimit start,
                  Event.limitError start (numCities - 1)])).flatten
              ++ [Event.askLimit start, Event.limitChosen start l.lu])
    ∧ ∀ (inp : List Line) (id : Nat) (rest1 : List Line) (out1 : List Event),
        promptLimit numCities start inp = .ok (id, rest1, out1) →
          0 ≤ id ∧ id ≤ numCities - 1 := by
  have hp : ulongPred numCities = numCities - 1 := ulongPred_of_pos _ h1 hmax
  constructor
  · unfold promptLimit
    rw [hp, promptLimitLoop_spec (numCities - 1) start l rest hl rejected [] hrej]
    simp
  · intro inp id rest1 out1 h
    unfold promptLimit at h
    rw [hp] at h
    exact ⟨Nat.zero_le _, promptLimitLoop_le _ _ _ _ _ _ _ h⟩

/-- C7, on a concrete run: three cities, the start prompt answered 7 and then 0;
7 is rejected with an error citing 2 and 0 is returned. -/
theorem promptLimit_first_in_range_witness :
    promptLimit 3 true ([{ lu := 7 }] ++ ({ lu := 0 } : Line) :: [])
        = .ok (0, [],
            [Event.askLimit true, Event.limitError true 2,
             Event.askLimit true, Event.limitChosen true 0]) :=
  (promptLimit_first_in_range 3 true [{ lu := 7 }] { lu := 0 } []
    (by decide) (by decide) (by decide) (by decide)).1

/-! ## `promptRoadDetails`: what is checked of a road -/

/-- With two cities the mandatory line `0:0:0` is accepted: the road returned
(and registered with city 0) has `from = to` and length 0.  Only the two range
tests guard the construction of a road. -/
theorem promptRoadDetails_accepts_loop_of_length_zero :
    promptRoadDetails 1 (insertCities 2) false [{ fromCity := 0, toCity := 0, length := 0 }]
      = .ok ([⟨0, 0, 0, false⟩],
             [(0, ⟨0, [⟨0, 0, 0, false⟩], [⟨0, 0, 0, false⟩]⟩), (1, ⟨1, [], []⟩)],
             [],
             [Event.detailsHeader, Event.askRoad 0, Event.newRoad false 0 0 0]) :=
  rfl

/-! ## `promptRoads` -/

/-- C9: for either classification and every value `v` read, `promptRoads`
returns 0 when `v` is `ULONG_MAX` and `v` itself otherwise; it reads one line,
prompts once, and leaves the rest of the input unread. -/
theorem promptRoads_normalises_sentinel (optional : Bool) (l : Line) (rest : List Line) :
    promptRoads optional (l :: rest)
      = .ok (if l.lu = ULONG_MAX then 0 else l.lu, rest,
             if l.lu = ULONG_MAX then
               [Event.askRoads optional, Event.roadsAdded 0 optional 0]
             else [Event.askRoads optional]) := by
  by_cases h : l.lu = ULONG_MAX <;> simp [promptRoads, h]

/-! ## `read`: no optional roads -/

theorem promptRoadDetails_zero (cities : NodeSet) (optional : Bool) (inp : List Line) :
    promptRoadDetails 0 cities optional inp = .ok ([], cities, inp, []) := by
  have h := roadLoop_exit 0 (ulongPred (NodeSet.size cities)) optional inp
    { i := 0, roads := [], cities := cities, out := [] } (Nat.not_lt_zero _)
  simp [promptRoadDetails, h]

/-- C10: when, in `read`, the count `promptRoads` returns for the optional roads
is 0, no road details are collected for them: the line after the count is read
by the start prompt, no road prompt is written in between, the result holds the
cities as the mandatory roads left them and an empty vector of optional roads.
And `promptRoadDetails` itself, asked for 0 roads, returns no road, reads
nothing, writes nothing and leaves the cities alone. -/
theorem read_skips_optional_details (inp0 : List Line) (cities : NodeSet)
    (inp1 : List Line) (out1 : List Event) (m : Nat) (inp2 : List Line) (out2 : List Event)
    (roads : List Road) (cities3 : NodeSet) (inp3 : List Line) (out3 : List Event)
    (inp4 : List Line) (out4 : List Event)
    (hc : promptCities inp0 = .ok (cities, inp1, out1))
    (hm : promptRoads false inp1 = .ok (m, inp2, out2))
    (hd : promptRoadDetails m cities false inp2 = .ok (roads, cities3, inp3, out3))
    (hk : promptRoads true inp3 = .ok (0, inp4, out4)) :
    read inp0
        = (match promptLimit (NodeSet.size cities3) true inp4 with
           | .error e => .error e
           | .ok (fromCity, inp6, out6) =>
             match promptLimit (NodeSet.size cities3) false inp6 with
             | .error e => .error e
             | .ok (toCity, inp7, out7) =>
               .ok ({ source := fromCity, target := toCity, cities := cities3, optRoads := [] },
                    inp7,
                    out1 ++ out2 ++ out3 ++ [Event.newline] ++ out4 ++ [Event.newline]
                      ++ out6 ++ [Event.newline] ++ out7 ++ [Event.newline]))
    ∧ ∀ (cities : NodeSet) (optional : Bool) (inp : List Line),
        promptRoadDetails 0 cities optional inp = .ok ([], cities, inp, []) := by
  refine ⟨?_, promptRoadDetails_zero⟩
  unfold read
  simp only [hc, hm, hd, hk, gt_iff_lt, Nat.lt_irrefl, if_false]
  cases h6 : promptLimit (NodeSet.size cities3) true inp4 with
  | error e => rfl
  | ok r6 =>
    obtain ⟨fromCity, inp6, out6⟩ := r6
    cases h7 : promptLimit (NodeSet.size cities3) false inp6 with
    | error e => simp [h7]
    | ok r7 =>
      obtain ⟨toCity, inp7, out7⟩ := r7
      simp [h7, InputReaderResult.new]

/-- C10, on the scenario of the specification: the optional count is 0, the
next line is read as the start city, and the result has no optional road. -/
theorem read_skips_optional_details_witness :
    read scenarioInput
      = .ok ({ source := 0, target := 2, cities := scenarioCities, optRoads := [] }, [],
             scenarioOutput) :=
  (read_skips_optional_details scenarioInput (insertCities 3)
    (scenarioInput.drop 1) [Event.askCities, Event.citiesAdded 3]
    2 (scenarioInput.drop 2) [Event.askRoads false]
    [⟨0, 1, 5, false⟩, ⟨1, 2, 3, false⟩] scenarioCities (scenarioInput.drop 4)
    [Event.detailsHeader, Event.askRoad 0, Event.newRoad false 0 1 5,
     Event.askRoad 1, Event.newRoad false 1 2 3]
    (scenarioInput.drop 5) [Event.askRoads true] rfl rfl rfl rfl).1.trans rfl

theorem promptLimit_cons_in_range (numCities : Nat) (start : Bool) (l : Line)
    (rest : List Line) (h1 : 1 ≤ numCities) (hmax : numCities ≤ ULONG_MAX)
    (hl : l.lu < numCities) :
    promptLimit numCities start (l :: rest)
      = .ok (l.lu, rest, [Event.askLimit start, Event.limitChosen start l.lu]) := by
  have hp : ulongPred numCities = numCities - 1 := ulongPred_of_pos _ h1 hmax
  have h := promptLimitLoop_spec (numCities - 1) start l rest (by omega) [] [] (by simp)
  simp only [List.nil_append] at h
  unfold promptLimit
  rw [hp, h]
  simp

/-! ## `read`: a whole session -/

theorem filter_inRange_append_all (cityLimit : Nat) (ls tail : List Line)
    (h : ∀ l ∈ ls, inRange cityLimit l = true) :
    (ls ++ tail).filter (inRange cityLimit) = ls ++ tail.filter (inRange cityLimit) := by
  rw [List.filter_append, List.filter_eq_self.2 h]

theorem acceptedLines_append_all (cityLimit : Nat) (ls tail : List Line)
    (h : ∀ l ∈ ls, inRange cityLimit l = true) :
    acceptedLines cityLimit ls.length (ls ++ tail) = ls := by
  unfold acceptedLines
  rw [filter_inRange_append_all cityLimit ls tail h]
  simp

theorem unreadAfter_append_all (cityLimit : Nat) (tail : List Line) :
    ∀ ls : List Line, (∀ l ∈ ls, inRange cityLimit l = true) →
      unreadAfter cityLimit ls.length (ls ++ tail) = tail
  | [], _ => by simp [unreadAfter]
  | l :: ls, h => by
    have hl : inRange cityLimit l = true := h l (List.mem_cons_self _ _)
    have ih := unreadAfter_append_all cityLimit tail ls
      (fun x hx => h x (List.mem_cons_of_mem _ hx))
    simp [unreadAfter, hl, ih]

theorem promptCities_cons_valid (l : Line) (rest : List Line) (hl : 2 ≤ l.d) :
    promptCities (l :: rest)
      = .ok (insertCities l.d, rest, [Event.askCities, Event.citiesAdded l.d]) := by
  have h := promptCitiesLoop_spec l rest hl [] [] (by simp)
  simp only [List.nil_append] at h
  simp [promptCities, h]

theorem promptRoads_cons_plain (optional : Bool) (l : Line) (rest : List Line)
    (h : l.lu ≠ ULONG_MAX) :
    promptRoads optional (l :: rest) = .ok (l.lu, rest, [Event.askRoads optional]) := by
  simp [promptRoads, h]

theorem ulongPred_size_insertCities (c : Int) (h2 : 2 ≤ c) (hmax : c ≤ INT_MAX) :
    ulongPred (NodeSet.size (insertCities c)) = c.toNat - 1 := by
  rw [insertCities_size]
  apply ulongPred_of_pos
  · omega
  · unfold INT_MAX at hmax
    unfold ULONG_MAX
    omega

/-- A valid session with counts that fit an `int`: the city count `c ≥ 2`, the
count `m` and `m` mandatory lines with both endpoints below `c`, the count `k`
and `k` such optional lines, then a start and an end id below `c`.  `read`
returns a result with `c` cities under the keys `0 .. c-1`; city `i` has id `i`,
as outgoing list the mandatory roads that leave `i` and as incoming list those
that reach `i`, in input order; the optional roads are the `k` optional lines;
source and target are the two ids; the input behind the session is unread. -/
theorem read_valid_session (lc lm lk ls lt : Line) (mand opt rest : List Line)
    (hc : 2 ≤ lc.d) (hcmax : lc.d ≤ INT_MAX)
    (hm : lm.lu = mand.length) (hmmax : (mand.length : Int) ≤ INT_MAX)
    (hmand : ∀ l ∈ mand, l.fromCity < lc.d.toNat ∧ l.toCity < lc.d.toNat)
    (hk : lk.lu = opt.length) (hkmax : (opt.length : Int) ≤ INT_MAX)
    (hopt : ∀ l ∈ opt, l.fromCity < lc.d.toNat ∧ l.toCity < lc.d.toNat)
    (hs : ls.lu < lc.d.toNat) (ht : lt.lu < lc.d.toNat) :
    ∃ res out,
      read (lc :: lm :: (mand ++ lk :: (opt ++ ls :: lt :: rest))) = .ok (res, rest, out)
      ∧ NodeSet.size res.cities = lc.d.toNat
      ∧ NodeSet.keys res.cities = List.range lc.d.toNat
      ∧ (∀ i, i < lc.d.toNat →
          NodeSet.find? res.cities i
            = some { id := i,
                     fromRoads := (mand.map (roadOf false)).filter
                       (fun r => decide (r.fromCity = i)),
                     toRoads := (mand.map (roadOf false)).filter
                       (fun r => decide (r.toCity = i)) })
      ∧ res.optRoads = opt.map (roadOf true)
      ∧ res.source = ls.lu ∧ res.target = lt.lu := by
  have hlim := ulongPred_size_insertCities lc.d hc hcmax
  have hin : ∀ (ls : List Line),
      (∀ l ∈ ls, l.fromCity < lc.d.toNat ∧ l.toCity < lc.d.toNat) →
      ∀ l ∈ ls, inRange (lc.d.toNat - 1) l = true := by
    intro ls h l hl
    have := h l hl
    exact (inRange_eq_true_iff _ _).2 ⟨by omega, by omega⟩
  have hmu : lm.lu ≠ ULONG_MAX := by
    unfold INT_MAX at hmmax
    unfold ULONG_MAX
    omega
  have hku : lk.lu ≠ ULONG_MAX := by
    unfold INT_MAX at hkmax
    unfold ULONG_MAX
    omega
  -- the cities
  have h1 := promptCities_cons_valid lc (lm :: (mand ++ lk :: (opt ++ ls :: lt :: rest))) hc
  -- the mandatory count and roads
  have h2 := promptRoads_cons_plain false lm (mand ++ lk :: (opt ++ ls :: lt :: rest)) hmu
  obtain ⟨out3, h3⟩ := promptRoadDetails_complete mand.length (insertCities lc.d) false
    (mand ++ lk :: (opt ++ ls :: lt :: rest)) hmmax
    (by rw [hlim, filter_inRange_append_all _ _ _ (hin mand hmand)]; simp)
    (fun _ => (insertCities_dense lc.d).mem_keys_of_le_limit
      (by rw [insertCities_size]; omega)
      (by rw [insertCities_size]; unfold INT_MAX at hcmax; unfold ULONG_MAX; omega))
  rw [hlim, acceptedLines_append_all _ _ _ (hin mand hmand),
    unreadAfter_append_all _ _ _ (hin mand hmand)] at h3
  have hsize3 : NodeSet.size (citiesAfter false (insertCities lc.d) (mand.map (roadOf false)))
      = lc.d.toNat := by
    rw [size_citiesAfter, insertCities_size]
  -- the optional count and roads
  have h4 := promptRoads_cons_plain true lk (opt ++ ls :: lt :: rest) hku
  have h5 : ∃ out5,
      (if opt.length > 0 then
        promptRoadDetails opt.length
          (citiesAfter false (insertCities lc.d) (mand.map (roadOf false))) true
          (opt ++ ls :: lt :: rest)
      else .ok ([], citiesAfter false (insertCities lc.d) (mand.map (roadOf false)),
        opt ++ ls :: lt :: rest, []))
      = .ok (opt.map (roadOf true),
          citiesAfter false (insertCities lc.d) (mand.map (roadOf false)),
          ls :: lt :: rest, out5) := by
    by_cases hpos : opt.length > 0
    · have hl5 : ulongPred (NodeSet.size
          (citiesAfter false (insertCities lc.d) (mand.map (roadOf false))))
          = lc.d.toNat - 1 := by
        rw [size_citiesAfter]
        exact hlim
      obtain ⟨out5, h5⟩ := promptRoadDetails_complete opt.length
        (citiesAfter false (insertCities lc.d) (mand.map (roadOf false))) true
        (opt ++ ls :: lt :: rest) hkmax
        (by rw [hl5, filter_inRange_append_all _ _ _ (hin opt hopt)]; simp)
        (fun h => by cases h)
      rw [hl5, acceptedLines_append_all _ _ _ (hin opt hopt),
        unreadAfter_append_all _ _ _ (hin opt hopt)] at h5
      refine ⟨out5, ?_⟩
      rw [if_pos hpos, h5]
      rfl
    · have hnil : opt = [] := List.length_eq_zero.1 (by omega)
      subst hnil
      exact ⟨[], by simp⟩
  obtain ⟨out5, h5⟩ := h5
  -- the two endpoints
  have h6 := (promptLimit_cons_in_range lc.d.toNat true ls (lt :: rest)
    (by omega) (by unfold INT_MAX at hcmax; unfold ULONG_MAX; omega) (by omega))
  have h7 := (promptLimit_cons_in_range lc.d.toNat false lt rest
    (by omega) (by unfold INT_MAX at hcmax; unfold ULONG_MAX; omega) (by omega))
  refine ⟨InputReaderResult.new lt.lu ls.lu
      (citiesAfter false (insertCities lc.d) (mand.map (roadOf false)))
      (opt.map (roadOf true)),
      [Event.askCities, Event.citiesAdded lc.d] ++ [Event.askRoads false] ++ out3
        ++ [Event.newline] ++ [Event.askRoads true] ++ out5 ++ [Event.newline]
        ++ [Event.askLimit true, Event.limitChosen true ls.lu] ++ [Event.newline]
        ++ [Event.askLimit false, Event.limitChosen false lt.lu] ++ [Event.newline],
      ?_, hsize3, ?_, ?_, rfl, rfl, rfl⟩
  · unfold read
    rw [h1]
    simp only
    rw [h2]
    simp only
    rw [hm, h3]
    simp only
    rw [h4]
    simp only
    rw [hk, h5]
    simp only
    rw [hsize3, h6]
    simp only
    rw [h7]
  · show NodeSet.keys (citiesAfter false (insertCities lc.d) (mand.map (roadOf false))) = _
    rw [keys_citiesAfter, insertCities_keys]
  · intro i hi
    show NodeSet.find? (citiesAfter false (insertCities lc.d) (mand.map (roadOf false))) i = _
    have : citiesAfter false (insertCities lc.d) (mand.map (roadOf false))
        = (mand.map (roadOf false)).foldl addRoad (insertCities lc.d) := rfl
    rw [this, NodeSet.find?_foldl_addRoad, insertCities_find? lc.d i hi]
    simp [cityWith, City.new]

/-- The scenario of the specification, as an instance of `read_valid_session`:
three cities, the mandatory roads `0:1:5` and `1:2:3`, no optional road, start 0
and end 2. -/
theorem read_valid_session_scenario :
    read scenarioInput
        = .ok ({ source := 0, target := 2, cities := scenarioCities, optRoads := [] }, [],
               scenarioOutput)
    ∧ ∃ res out,
        read scenarioInput = .ok (res, [], out)
        ∧ NodeSet.size res.cities = 3
        ∧ NodeSet.keys res.cities = List.range 3
        ∧ (∀ i, i < 3 →
            NodeSet.find? res.cities i
              = some { id := i,
                       fromRoads := ([⟨0, 1, 5, false⟩, ⟨1, 2, 3, false⟩] : List Road).filter
                         (fun r => decide (r.fromCity = i)),
                       toRoads := ([⟨0, 1, 5, false⟩, ⟨1, 2, 3, false⟩] : List Road).filter
                         (fun r => decide (r.toCity = i)) })
        ∧ res.optRoads = []
        ∧ res.source = 0 ∧ res.target = 2 :=
  ⟨rfl,
   read_valid_session { d := 3 } { lu := 2 } { lu := 0 } { lu := 0 } { lu := 2 }
    [{ fromCity := 0, toCity := 1, length := 5 }, { fromCity := 1, toCity := 2, length := 3 }]
    [] [] (by decide) (by decide) rfl (by decide) (by decide) rfl (by decide) (by decide)
    (by decide) (by decide)⟩

theorem read_overflow (lc lm : Line) (inp : List Line)
    (hc : 2 ≤ lc.d) (hcmax : lc.d ≤ INT_MAX)
    (hm1 : INT_MAX < (lm.lu : Int)) (hm2 : lm.lu ≠ ULONG_MAX)
    (hinp : 2 ^ 31 ≤ (inp.filter (inRange (lc.d.toNat - 1))).length) :
    read (lc :: lm :: inp) = .error Fault.intOverflow := by
  have hlim := ulongPred_size_insertCities lc.d hc hcmax
  have h1 := promptCities_cons_valid lc (lm :: inp) hc
  have h2 := promptRoads_cons_plain false lm inp hm2
  have h3 := promptRoadDetails_overflow lm.lu (insertCities lc.d) false inp hm1
    (by rw [hlim]; exact hinp)
    (fun _ => (insertCities_dense lc.d).mem_keys_of_le_limit
      (by rw [insertCities_size]; omega)
      (by rw [insertCities_size]; unfold INT_MAX at hcmax; unfold ULONG_MAX; omega))
  unfold read
  rw [h1]
  simp only
  rw [h2]
  simp only
  rw [h3]

/-- C1, where the code departs from it: the valid session of two cities,
`2 ^ 31 + 1` mandatory roads `0:1:1`, no optional road, start 0 and end 1 gives
no result: the `int` index of the road loop is incremented at `INT_MAX` after
the `2 ^ 31`-th road, which is undefined. -/
theorem read_int_index_overflow :
    read ({ d := 2 } :: { lu := 2 ^ 31 + 1 } ::
        (List.replicate (2 ^ 31 + 1) { fromCity := 0, toCity := 1, length := 1 }
          ++ [{ lu := 0 }, { lu := 0 }, { lu := 1 }]))
      = .error Fault.intOverflow := by
  apply read_overflow
  · decide
  · decide
  · decide
  · decide
  · have hr : inRange (({ d := 2 } : Line).d.toNat - 1)
        { fromCity := 0, toCity := 1, length := 1 } = true := by decide
    rw [List.filter_append, List.filter_replicate, hr, if_pos rfl, List.length_append,
      List.length_replicate]
    omega

/-! ## What the stages of `read` hand on -/

theorem promptCitiesLoop_ok :
    ∀ (inp : List Line) (out : List Event) (c : Int) (rest : List Line) (out1 : List Event),
      promptCitiesLoop inp out = .ok (c, rest, out1) → 2 ≤ c ∧ ∃ l ∈ inp, l.d = c
  | [], _, _, _, _, h => by simp [promptCitiesLoop] at h
  | l :: inp, out, c, rest, out1, h => by
    by_cases hl : l.d < 2
    · simp only [promptCitiesLoop, hl, if_true] at h
      obtain ⟨h2, l1, hl1, hc⟩ := promptCitiesLoop_ok inp _ c rest out1 h
      exact ⟨h2, l1, List.mem_cons_of_mem _ hl1, hc⟩
    · simp only [promptCitiesLoop, hl, if_false, Except.ok.injEq, Prod.mk.injEq] at h
      exact ⟨by omega, l, List.mem_cons_self _ _, h.1⟩

/-- Whenever `promptCities` returns, the map it returns was built for a count
`c ≥ 2` read from the input: it is dense and has `c` entries. -/
theorem promptCities_ok (inp : List Line) (cities : NodeSet) (rest : List Line)
    (out : List Event) (h : promptCities inp = .ok (cities, rest, out)) :
    ∃ l ∈ inp, 2 ≤ l.d ∧ cities = insertCities l.d := by
  unfold promptCities at h
  split at h
  · cases h
  · rename_i c rest1 out1 hloop
    simp only [Except.ok.injEq, Prod.mk.injEq] at h
    obtain ⟨h2, l, hl, hc⟩ := promptCitiesLoop_ok inp [] c rest1 out1 hloop
    exact ⟨l, hl, by omega, by rw [hc]; exact h.1.symm⟩

theorem promptCities_ok_size (inp : List Line) (cities : NodeSet) (rest : List Line)
    (out : List Event) (h : promptCities inp = .ok (cities, rest, out)) :
    2 ≤ NodeSet.size cities ∧ NodeSet.Dense cities := by
  obtain ⟨l, _, h2, rfl⟩ := promptCities_ok inp cities rest out h
  exact ⟨by rw [insertCities_size]; omega, insertCities_dense l.d⟩

/-- Whenever `promptRoadDetails` returns, the map has the keys, and so the size,
it had before. -/
theorem promptRoadDetails_ok_keys (numRoads : Nat) (cities : NodeSet) (optional : Bool)
    (inp : List Line) (roads : List Road) (cities1 : NodeSet) (rest : List Line)
    (out : List Event)
    (h : promptRoadDetails numRoads cities optional inp = .ok (roads, cities1, rest, out)) :
    NodeSet.keys cities1 = NodeSet.keys cities ∧ NodeSet.size cities1 = NodeSet.size cities := by
  obtain ⟨_, _, _, hc, _, _⟩ :=
    promptRoadDetails_ok_inv numRoads cities optional inp roads cities1 rest out h
  rw [hc]
  exact ⟨keys_citiesAfter _ _ _, size_citiesAfter _ _ _⟩

theorem optionalStage_ok_size (k : Nat) (cities3 : NodeSet) (inp4 : List Line)
    (optRoads : List Road) (cities5 : NodeSet) (inp5 : List Line) (out5 : List Event)
    (h : (if k > 0 then promptRoadDetails k cities3 true inp4
          else .ok ([], cities3, inp4, [])) = .ok (optRoads, cities5, inp5, out5)) :
    NodeSet.size cities5 = NodeSet.size cities3 := by
  by_cases hk : k > 0
  · rw [if_pos hk] at h
    exact (promptRoadDetails_ok_keys _ _ _ _ _ _ _ _ h).2
  · rw [if_neg hk] at h
    simp only [Except.ok.injEq, Prod.mk.injEq] at h
    rw [h.2.1]

/-! ## `read`: the two endpoints -/

/-- C11: in `read`, once the cities and both classes of roads are collected,
the start prompt returns the first id `s ≤ numCities - 1` it is given and the
end prompt the first id `t ≤ numCities - 1` given after that; the result has
source `s` and target `t`.  No hypothesis relates `s` and `t`: equal ids are
accepted like any others. -/
theorem read_endpoints_independent (inp0 : List Line) (cities : NodeSet)
    (inp1 : List Line) (out1 : List Event) (m : Nat) (inp2 : List Line) (out2 : List Event)
    (roads : List Road) (cities3 : NodeSet) (inp3 : List Line) (out3 : List Event)
    (k : Nat) (inp4 : List Line) (out4 : List Event)
    (optRoads : List Road) (cities5 : NodeSet) (out5 : List Event)
    (rejS rejT : List Line) (ls lt : Line) (rest : List Line)
    (hc : promptCities inp0 = .ok (cities, inp1, out1))
    (hm : promptRoads false inp1 = .ok (m, inp2, out2))
    (hd : promptRoadDetails m cities false inp2 = .ok (roads, cities3, inp3, out3))
    (hk : promptRoads true inp3 = .ok (k, inp4, out4))
    (ho : (if k > 0 then promptRoadDetails k cities3 true inp4
           else .ok ([], cities3, inp4, []))
          = .ok (optRoads, cities5, rejS ++ ls :: (rejT ++ lt :: rest), out5))
    (hmax : NodeSet.size cities5 ≤ ULONG_MAX)
    (hrejS : ∀ x ∈ rejS, x.lu > NodeSet.size cities5 - 1)
    (hs : ls.lu ≤ NodeSet.size cities5 - 1)
    (hrejT : ∀ x ∈ rejT, x.lu > NodeSet.size cities5 - 1)
    (ht : lt.lu ≤ NodeSet.size cities5 - 1) :
    ∃ out, read inp0
      = .ok ({ source := ls.lu, target := lt.lu, cities := cities5, optRoads := optRoads },
             rest, out) := by
  have hsize : 1 ≤ NodeSet.size cities5 := by
    have h1 := (promptCities_ok_size _ _ _ _ hc).1
    have h2 := (promptRoadDetails_ok_keys _ _ _ _ _ _ _ _ hd).2
    have h3 := optionalStage_ok_size _ _ _ _ _ _ _ ho
    omega
  have hp : ulongPred (NodeSet.size cities5) = NodeSet.size cities5 - 1 :=
    ulongPred_of_pos _ hsize hmax
  have h6 : promptLimit (NodeSet.size cities5) true (rejS ++ ls :: (rejT ++ lt :: rest))
      = .ok (ls.lu, rejT ++ lt :: rest,
          [] ++ (rejS.map (fun _ => [Event.askLimit true,
              Event.limitError true (NodeSet.size cities5 - 1)])).flatten
            ++ [Event.askLimit true, Event.limitChosen true ls.lu]) := by
    unfold promptLimit
    rw [hp]
    exact promptLimitLoop_spec _ true ls _ hs rejS [] hrejS
  have h7 : promptLimit (NodeSet.size cities5) false (rejT ++ lt :: rest)
      = .ok (lt.lu, rest,
          [] ++ (rejT.map (fun _ => [Event.askLimit false,
              Event.limitError false (NodeSet.size cities5 - 1)])).flatten
            ++ [Event.askLimit false, Event.limitChosen false lt.lu]) := by
    unfold promptLimit
    rw [hp]
    exact promptLimitLoop_spec _ false lt _ ht rejT [] hrejT
  unfold read
  rw [hc]
  simp only
  rw [hm]
  simp only
  rw [hd]
  simp only
  rw [hk]
  simp only
  rw [ho]
  simp only
  rw [h6]
  simp only
  rw [h7]
  exact ⟨_, rfl⟩

/-- C11, on a concrete session: three cities, no roads, the start prompt
answered 7 (rejected) and then 1, the end prompt answered 1; the result has
source 1 and target 1. -/
theorem read_endpoints_independent_witness :
    ∃ out, read [{ d := 3 }, { lu := 0 }, { lu := 0 }, { lu := 7 }, { lu := 1 }, { lu := 1 }]
      = .ok ({ source := ({ lu := 1 } : Line).lu, target := ({ lu := 1 } : Line).lu,
               cities := insertCities 3, optRoads := [] },
             [], out) :=
  read_endpoints_independent
    [{ d := 3 }, { lu := 0 }, { lu := 0 }, { lu := 7 }, { lu := 1 }, { lu := 1 }]
    (insertCities 3)
    [{ lu := 0 }, { lu := 0 }, { lu := 7 }, { lu := 1 }, { lu := 1 }]
    [Event.askCities, Event.citiesAdded 3]
    0 [{ lu := 0 }, { lu := 7 }, { lu := 1 }, { lu := 1 }] [Event.askRoads false]
    [] (insertCities 3) [{ lu := 0 }, { lu := 7 }, { lu := 1 }, { lu := 1 }] []
    0 [{ lu := 7 }, { lu := 1 }, { lu := 1 }] [Event.askRoads true]
    [] (insertCities 3) []
    [{ lu := 7 }] [] { lu := 1 } { lu := 1 } []
    rfl rfl rfl rfl rfl (by decide) (by decide) (by decide) (by decide) (by decide)

/-! ## `promptRoadDetails`: the roads returned -/

/-- Whenever `promptRoadDetails` returns, the vector it returns is the
first `numRoads` lines of the input that pass the range test, in input order,
each line `f:t:l` turned into the road with `from = f`, `to = t`, `length = l`
and the classification passed in.  And it does return, with that vector, when
`numRoads` fits an `int`, the input holds `numRoads` such lines and (for
mandatory roads) every key up to the bound is in the map. -/
theorem promptRoadDetails_roads_in_input_order (numRoads : Nat) (cities : NodeSet)
    (optional : Bool) (inp : List Line) :
    (∀ (roads : List Road) (cities1 : NodeSet) (rest : List Line) (out : List Event),
      promptRoadDetails numRoads cities optional inp = .ok (roads, cities1, rest, out) →
      roads = ((inp.filter (inRange (ulongPred (NodeSet.size cities)))).take numRoads).map
          (fun l => { fromCity := l.fromCity, toCity := l.toCity, length := l.length,
                      isOptional := optional })
      ∧ roads.length = numRoads)
    ∧ ((numRoads : Int) ≤ INT_MAX →
        numRoads ≤ (inp.filter (inRange (ulongPred (NodeSet.size cities)))).length →
        (optional = false →
          ∀ k, k ≤ ulongPred (NodeSet.size cities) → k ∈ NodeSet.keys cities) →
        ∃ cities1 rest out, promptRoadDetails numRoads cities optional inp
          = .ok (((inp.filter (inRange (ulongPred (NodeSet.size cities)))).take numRoads).map
                  (fun l => { fromCity := l.fromCity, toCity := l.toCity, length := l.length,
                              isOptional := optional }),
                 cities1, rest, out)) := by
  constructor
  · intro roads cities1 rest out h
    obtain ⟨_, hlen, hr, _, _, _⟩ :=
      promptRoadDetails_ok_inv numRoads cities optional inp roads cities1 rest out h
    refine ⟨hr, ?_⟩
    rw [hr, List.length_map]
    exact length_acceptedLines _ _ _ hlen
  · intro hn hinp hk
    obtain ⟨out, h⟩ := promptRoadDetails_complete numRoads cities optional inp hn hinp hk
    exact ⟨_, _, out, h⟩

/-- A concrete run: three cities, two optional roads asked for, the
lines `0:1:5`, `7:1:5` (rejected), `1:2:3` and `2:0:9` (not read); the roads
returned are those of the first and the third line, in that order. -/
theorem promptRoadDetails_roads_in_input_order_example :
    ∃ cities1 rest out,
      promptRoadDetails 2 (insertCities 3) true
          [{ fromCity := 0, toCity := 1, length := 5 }, { fromCity := 7, toCity := 1, length := 5 },
           { fromCity := 1, toCity := 2, length := 3 }, { fromCity := 2, toCity := 0, length := 9 }]
        = .ok ([⟨0, 1, 5, true⟩, ⟨1, 2, 3, true⟩], cities1, rest, out) :=
  (promptRoadDetails_roads_in_input_order 2 (insertCities 3) true
      [{ fromCity := 0, toCity := 1, length := 5 }, { fromCity := 7, toCity := 1, length := 5 },
       { fromCity := 1, toCity := 2, length := 3 }, { fromCity := 2, toCity := 0, length := 9 }]).2
    (by decide) (by decide) (fun h => by cases h)

/-! ## `promptRoadDetails`: what acceptance depends on -/

theorem roadStep_in_range (cityLimit : Nat) (optional : Bool) (l : Line) (s : LoopState)
    (hf : l.fromCity ≤ cityLimit) (ht : l.toCity ≤ cityLimit)
    (hk : optional = false →
      l.fromCity ∈ NodeSet.keys s.cities ∧ l.toCity ∈ NodeSet.keys s.cities) :
    roadStep cityLimit optional l s
      = (match intIncr s.i with
         | .error e => .error e
         | .ok i2 =>
           .ok { i := i2,
                 roads := s.roads ++ [{ fromCity := l.fromCity, toCity := l.toCity,
                                        length := l.length, isOptional := optional }],
                 cities := if optional then s.cities else addRoad s.cities (roadOf optional l),
                 out := s.out ++ [Event.askRoad s.i,
                   Event.newRoad optional l.fromCity l.toCity l.length] }) := by
  have hc : ¬ (l.fromCity > cityLimit ∨ l.toCity > cityLimit) := by omega
  cases optional with
  | true =>
    cases hi : intIncr s.i <;> simp [roadStep, hc, hi, Road.new]
  | false =>
    have hreg : registerRoad s.cities (roadOf false l)
        = .ok (addRoad s.cities (roadOf false l)) :=
      registerRoad_ok _ _ (hk rfl).1 (hk rfl).2
    unfold roadOf at hreg
    cases hi : intIncr s.i <;> simp [roadStep, hc, hi, Road.new, hreg, roadOf]

/-- C13: a line whose endpoints are both at most `numCities - 1` is accepted in
every round of the loop, whatever its length and whatever roads the vector
already holds: the round appends its road and only then increments the index
(the one step that can fail, at `INT_MAX`).  A second line with the same
endpoints is accepted again: asked for two roads, `promptRoadDetails` returns
both, in order, and when they are mandatory the outgoing list of their `from`
city and the incoming list of their `to` city each end with both. -/
theorem promptRoadDetails_accepts_on_endpoints_only (cities : NodeSet) (optional : Bool)
    (l l2 : Line) (rest : List Line)
    (hd : NodeSet.Dense cities) (h1 : 1 ≤ NodeSet.size cities)
    (hmax : NodeSet.size cities ≤ ULONG_MAX)
    (hf : l.fromCity ≤ NodeSet.size cities - 1) (ht : l.toCity ≤ NodeSet.size cities - 1)
    (hf2 : l2.fromCity = l.fromCity) (ht2 : l2.toCity = l.toCity) :
    (∀ (s : LoopState) (x : Line),
      x.fromCity ≤ NodeSet.size cities - 1 → x.toCity ≤ NodeSet.size cities - 1 →
      NodeSet.keys s.cities = NodeSet.keys cities →
      roadStep (ulongPred (NodeSet.size cities)) optional x s
        = (match intIncr s.i with
           | .error e => .error e
           | .ok i2 =>
             .ok { i := i2,
                   roads := s.roads ++ [{ fromCity := x.fromCity, toCity := x.toCity,
                                          length := x.length, isOptional := optional }],
                   cities := if optional then s.cities
                             else addRoad s.cities (roadOf optional x),
                   out := s.out ++ [Event.askRoad s.i,
                     Event.newRoad optional x.fromCity x.toCity x.length] }))
    ∧ (∃ cities1 out,
        promptRoadDetails 2 cities optional (l :: l2 :: rest)
          = .ok ([{ fromCity := l.fromCity, toCity := l.toCity, length := l.length,
                    isOptional := optional },
                  { fromCity := l.fromCity, toCity := l.toCity, length := l2.length,
                    isOptional := optional }],
                 cities1, rest, out)
        ∧ (optional = false → ∀ cf ct,
            NodeSet.find? cities l.fromCity = some cf →
            NodeSet.find? cities l.toCity = some ct →
            (∃ c, NodeSet.find? cities1 l.fromCity = some c
              ∧ c.fromRoads = cf.fromRoads
                  ++ [⟨l.fromCity, l.toCity, l.length, false⟩,
                      ⟨l.fromCity, l.toCity, l2.length, false⟩])
            ∧ (∃ c, NodeSet.find? cities1 l.toCity = some c
              ∧ c.toRoads = ct.toRoads
                  ++ [⟨l.fromCity, l.toCity, l.length, false⟩,
                      ⟨l.fromCity, l.toCity, l2.length, false⟩]))) := by
  have hl : ulongPred (NodeSet.size cities) = NodeSet.size cities - 1 :=
    ulongPred_of_pos _ h1 hmax
  have hkeys := hd.mem_keys_of_le_limit h1 hmax
  rw [hl] at hkeys
  constructor
  · intro s x hxf hxt hks
    rw [hl]
    exact roadStep_in_range _ optional x s hxf hxt
      (fun _ => by rw [hks]; exact ⟨hkeys _ hxf, hkeys _ hxt⟩)
  · have hr1 : inRange (NodeSet.size cities - 1) l = true :=
      (inRange_eq_true_iff _ _).2 ⟨hf, ht⟩
    have hr2 : inRange (NodeSet.size cities - 1) l2 = true :=
      (inRange_eq_true_iff _ _).2 ⟨by rw [hf2]; exact hf, by rw [ht2]; exact ht⟩
    have hfilter : (l :: l2 :: rest).filter (inRange (NodeSet.size cities - 1))
        = l :: l2 :: rest.filter (inRange (NodeSet.size cities - 1)) := by
      simp [List.filter, hr1, hr2]
    obtain ⟨out, h⟩ := promptRoadDetails_complete 2 cities optional (l :: l2 :: rest)
      (by decide) (by rw [hl, hfilter]; simp) (fun _ => by rw [hl]; exact hkeys)
    rw [hl] at h
    have hacc : acceptedLines (NodeSet.size cities - 1) 2 (l :: l2 :: rest) = [l, l2] := by
      simp [acceptedLines, hfilter]
    have hun : unreadAfter (NodeSet.size cities - 1) 2 (l :: l2 :: rest) = rest := by
      simp [unreadAfter, hr1, hr2]
    rw [hacc, hun] at h
    have hroads : [l, l2].map (roadOf optional)
        = [{ fromCity := l.fromCity, toCity := l.toCity, length := l.length,
             isOptional := optional },
           { fromCity := l.fromCity, toCity := l.toCity, length := l2.length,
             isOptional := optional }] := by
      simp [roadOf, hf2, ht2]
    rw [hroads] at h
    refine ⟨_, out, h, ?_⟩
    intro ho cf ct hcf hct
    subst ho
    have hfind : ∀ k, NodeSet.find?
        (citiesAfter false cities
          [⟨l.fromCity, l.toCity, l.length, false⟩, ⟨l.fromCity, l.toCity, l2.length, false⟩]) k
        = (NodeSet.find? cities k).map
            (cityWith k [⟨l.fromCity, l.toCity, l.length, false⟩,
              ⟨l.fromCity, l.toCity, l2.length, false⟩]) :=
      fun k => NodeSet.find?_foldl_addRoad k _ cities
    constructor
    · refine ⟨_, by rw [hfind, hcf]; rfl, ?_⟩
      simp [cityWith, List.filter]
    · refine ⟨_, by rw [hfind, hct]; rfl, ?_⟩
      simp [cityWith, List.filter]

/-- C13, on a concrete run: two cities, two mandatory roads asked for, the line
`0:1:0` given twice; both are accepted, length 0 and repeated pair
notwithstanding, and two equal roads are returned. -/
theorem promptRoadDetails_accepts_on_endpoints_only_witness :
    ∃ cities1 out,
      promptRoadDetails 2 (insertCities 2) false
          [{ fromCity := 0, toCity := 1, length := 0 }, { fromCity := 0, toCity := 1, length := 0 }]
        = .ok ([⟨0, 1, 0, false⟩, ⟨0, 1, 0, false⟩], cities1, [], out) := by
  obtain ⟨cities1, out, h, _⟩ :=
    (promptRoadDetails_accepts_on_endpoints_only (insertCities 2) false
      { fromCity := 0, toCity := 1, length := 0 } { fromCity := 0, toCity := 1, length := 0 } []
      (insertCities_dense 2) (by decide) (by decide) (by decide) (by decide) rfl rfl).2
  exact ⟨cities1, out, h⟩

/-! ## The adjacency invariant -/

theorem NodeSet.mem_modify (k : Nat) (f : City → City) :
    ∀ (m : NodeSet) (p : Nat × City), p ∈ NodeSet.modify m k f →
      ∃ q ∈ m, p.1 = q.1 ∧ (p.2 = q.2 ∨ (q.1 = k ∧ p.2 = f q.2))
  | [], p, h => by simp [NodeSet.modify] at h
  | (k1, c1) :: rest, p, h => by
    by_cases hk : k = k1
    · simp only [NodeSet.modify, hk, if_true] at h
      rcases List.mem_cons.1 h with rfl | hmem
      · exact ⟨(k1, c1), List.mem_cons_self _ _, rfl, Or.inr ⟨hk.symm, rfl⟩⟩
      · exact ⟨p, List.mem_cons_of_mem _ hmem, rfl, Or.inl rfl⟩
    · simp only [NodeSet.modify, hk, if_false] at h
      rcases List.mem_cons.1 h with rfl | hmem
      · exact ⟨(k1, c1), List.mem_cons_self _ _, rfl, Or.inl rfl⟩
      · obtain ⟨q, hq, h1, h2⟩ := NodeSet.mem_modify k f rest p hmem
        exact ⟨q, List.mem_cons_of_mem _ hq, h1, h2⟩

theorem adjacency_addRoad (m : NodeSet) (r : Road) (hr : r.isOptional = false)
    (hid : NodeSet.KeysAreIds m) (hadj : NodeSet.AdjacencyInv m) :
    NodeSet.KeysAreIds (addRoad m r) ∧ NodeSet.AdjacencyInv (addRoad m r) := by
  have step1 : NodeSet.KeysAreIds
        (NodeSet.modify m r.fromCity (fun c => { c with fromRoads := c.fromRoads ++ [r] }))
      ∧ NodeSet.AdjacencyInv
        (NodeSet.modify m r.fromCity (fun c => { c with fromRoads := c.fromRoads ++ [r] })) := by
    constructor
    · intro p hp
      obtain ⟨q, hq, h1, h2⟩ := NodeSet.mem_modify _ _ m p hp
      rcases h2 with h2 | ⟨_, h2⟩
      · rw [h2, h1]; exact hid q hq
      · rw [h2, h1]; exact hid q hq
    · intro p hp
      obtain ⟨q, hq, h1, h2⟩ := NodeSet.mem_modify _ _ m p hp
      rcases h2 with h2 | ⟨hk, h2⟩
      · rw [h2]; exact hadj q hq
      · rw [h2]
        refine ⟨?_, (hadj q hq).2⟩
        intro x hx
        rcases List.mem_append.1 hx with hx | hx
        · exact (hadj q hq).1 x hx
        · rw [List.mem_singleton.1 hx]
          exact ⟨by show r.fromCity = q.2.id; rw [hid q hq, hk], hr⟩
  unfold addRoad
  constructor
  · intro p hp
    obtain ⟨q, hq, h1, h2⟩ := NodeSet.mem_modify _ _ _ p hp
    rcases h2 with h2 | ⟨_, h2⟩
    · rw [h2, h1]; exact step1.1 q hq
    · rw [h2, h1]; exact step1.1 q hq
  · intro p hp
    obtain ⟨q, hq, h1, h2⟩ := NodeSet.mem_modify _ _ _ p hp
    rcases h2 with h2 | ⟨hk, h2⟩
    · rw [h2]; exact step1.2 q hq
    · rw [h2]
      refine ⟨(step1.2 q hq).1, ?_⟩
      intro x hx
      rcases List.mem_append.1 hx with hx | hx
      · exact (step1.2 q hq).2 x hx
      · rw [List.mem_singleton.1 hx]
        exact ⟨by show r.toCity = q.2.id; rw [step1.1 q hq, hk], hr⟩

theorem adjacency_foldl_addRoad (rs : List Road) :
    ∀ m : NodeSet, (∀ r ∈ rs, r.isOptional = false) →
      NodeSet.KeysAreIds m → NodeSet.AdjacencyInv m →
      NodeSet.KeysAreIds (rs.foldl addRoad m) ∧ NodeSet.AdjacencyInv (rs.foldl addRoad m) := by
  induction rs with
  | nil => intro m _ h1 h2; exact ⟨h1, h2⟩
  | cons r rs ih =>
    intro m hr h1 h2
    have h := adjacency_addRoad m r (hr r (List.mem_cons_self _ _)) h1 h2
    exact ih (addRoad m r) (fun x hx => hr x (List.mem_cons_of_mem _ hx)) h.1 h.2

theorem adjacency_insertCities (c : Int) :
    NodeSet.KeysAreIds (insertCities c) ∧ NodeSet.AdjacencyInv (insertCities c) := by
  rw [insertCities_eq]
  constructor
  · intro p hp
    obtain ⟨i, _, rfl⟩ := List.mem_map.1 hp
    rfl
  · intro p hp
    obtain ⟨i, _, rfl⟩ := List.mem_map.1 hp
    exact ⟨fun r hr => by simp [City.new] at hr, fun r hr => by simp [City.new] at hr⟩

theorem adjacency_promptRoadDetails (numRoads : Nat) (cities : NodeSet) (optional : Bool)
    (inp : List Line) (roads : List Road) (cities1 : NodeSet) (rest : List Line)
    (out : List Event)
    (h : promptRoadDetails numRoads cities optional inp = .ok (roads, cities1, rest, out))
    (hid : NodeSet.KeysAreIds cities) (hadj : NodeSet.AdjacencyInv cities) :
    NodeSet.KeysAreIds cities1 ∧ NodeSet.AdjacencyInv cities1 := by
  obtain ⟨_, _, hr, hc, _, _⟩ :=
    promptRoadDetails_ok_inv numRoads cities optional inp roads cities1 rest out h
  cases optional with
  | true =>
    have : cities1 = cities := by rw [hc]; rfl
    rw [this]
    exact ⟨hid, hadj⟩
  | false =>
    have : cities1 = roads.foldl addRoad cities := by rw [hc]; rfl
    rw [this]
    apply adjacency_foldl_addRoad roads cities _ hid hadj
    intro r hmem
    rw [hr] at hmem
    obtain ⟨l, _, rfl⟩ := List.mem_map.1 hmem
    rfl

theorem adjacency_calls :
    ∀ (calls : List (Nat × Bool × List Line)) (cities m : NodeSet),
      promptRoadDetailsCalls calls cities = .ok m →
      NodeSet.KeysAreIds cities → NodeSet.AdjacencyInv cities →
      NodeSet.KeysAreIds m ∧ NodeSet.AdjacencyInv m
  | [], cities, m, h, h1, h2 => by
    simp only [promptRoadDetailsCalls, Except.ok.injEq] at h
    rw [← h]
    exact ⟨h1, h2⟩
  | (numRoads, optional, inp) :: calls, cities, m, h, h1, h2 => by
    simp only [promptRoadDetailsCalls] at h
    cases hp : promptRoadDetails numRoads cities optional inp with
    | error e => simp [hp] at h
    | ok res =>
      obtain ⟨roads, cities1, rest, out⟩ := res
      simp only [hp] at h
      have hg := adjacency_promptRoadDetails _ _ _ _ _ _ _ _ hp h1 h2
      exact adjacency_calls calls cities1 m h hg.1 hg.2

/-- C14: start from the map `promptCities` returns and make any sequence of
calls of `promptRoadDetails`, with any counts, either flag and any inputs.  In
the map after the last call every road in a city's outgoing list has that
city's id as `from`, every road in its incoming list has it as `to`, and every
road in either list is mandatory. -/
theorem adjacency_invariant (inp0 : List Line) (cities : NodeSet) (rest0 : List Line)
    (out0 : List Event) (calls : List (Nat × Bool × List Line)) (m : NodeSet)
    (hc : promptCities inp0 = .ok (cities, rest0, out0))
    (hcalls : promptRoadDetailsCalls calls cities = .ok m) :
    ∀ p ∈ m,
      (∀ r ∈ p.2.fromRoads, r.fromCity = p.2.id ∧ r.isOptional = false) ∧
      (∀ r ∈ p.2.toRoads, r.toCity = p.2.id ∧ r.isOptional = false) := by
  obtain ⟨l, _, _, rfl⟩ := promptCities_ok inp0 cities rest0 out0 hc
  have h0 := adjacency_insertCities l.d
  exact (adjacency_calls calls _ m hcalls h0.1 h0.2).2

/-- C14, on a concrete run: the three cities of `promptCities`, then a call for
the two mandatory roads `0:1:5` and `1:2:3` and a call for the optional road
`2:0:7`; in city 1 of the resulting map the outgoing road leaves 1, the incoming
road reaches 1, and both are mandatory. -/
theorem adjacency_invariant_witness :
    promptRoadDetailsCalls
        [(2, false, [{ fromCity := 0, toCity := 1, length := 5 },
                     { fromCity := 1, toCity := 2, length := 3 }]),
         (1, true, [{ fromCity := 2, toCity := 0, length := 7 }])]
        (insertCities 3) = .ok scenarioCities
    ∧ ((∀ r ∈ [(⟨1, 2, 3, false⟩ : Road)], r.fromCity = 1 ∧ r.isOptional = false)
      ∧ (∀ r ∈ [(⟨0, 1, 5, false⟩ : Road)], r.toCity = 1 ∧ r.isOptional = false)) :=
  ⟨rfl,
   adjacency_invariant [{ d := 3 }] (insertCities 3) [] [Event.askCities, Event.citiesAdded 3]
    [(2, false, [{ fromCity := 0, toCity := 1, length := 5 },
                 { fromCity := 1, toCity := 2, length := 3 }]),
     (1, true, [{ fromCity := 2, toCity := 0, length := 7 }])]
    scenarioCities rfl rfl
    (1, { id := 1, fromRoads := [⟨1, 2, 3, false⟩], toRoads := [⟨0, 1, 5, false⟩] })
    (by decide)⟩

/-! ## The city lookups of `promptRoadDetails` -/

theorem intIncr_eq_error (i : Int) (e : Fault) (h : intIncr i = .error e) :
    e = Fault.intOverflow := by
  unfold intIncr at h
  split at h
  · cases h
  · cases h
    rfl

theorem intDecr_eq_error (i : Int) (e : Fault) (h : intDecr i = .error e) :
    e = Fault.intOverflow := by
  unfold intDecr at h
  split at h
  · cases h
  · cases h
    rfl

theorem roadStep_ne_nullCity (cityLimit : Nat) (optional : Bool) (l : Line) (s : LoopState)
    (hk : ∀ k, k ≤ cityLimit → k ∈ NodeSet.keys s.cities) :
    roadStep cityLimit optional l s ≠ .error Fault.nullCity := by
  cases hl : inRange cityLimit l with
  | false =>
    have hc := (inRange_eq_false_iff cityLimit l).1 hl
    intro h
    simp only [roadStep, hc, if_true] at h
    cases hd : intDecr s.i with
    | error e =>
      have he := intDecr_eq_error _ _ hd
      rw [hd, he] at h
      cases h
    | ok i1 =>
      rw [hd] at h
      cases hi : intIncr i1 with
      | error e =>
        have he := intIncr_eq_error _ _ hi
        rw [he] at hi
        simp [hi] at h
      | ok i2 => simp [hi] at h
  | true =>
    have hr := (inRange_eq_true_iff cityLimit l).1 hl
    rw [roadStep_in_range cityLimit optional l s hr.1 hr.2
      (fun _ => ⟨hk _ hr.1, hk _ hr.2⟩)]
    unfold intIncr
    split_ifs <;> simp

theorem roadStep_ok_keys (cityLimit : Nat) (optional : Bool) (l : Line) (s s1 : LoopState)
    (h : roadStep cityLimit optional l s = .ok s1) :
    NodeSet.keys s1.cities = NodeSet.keys s.cities := by
  rcases roadStep_ok_cases cityLimit optional l s s1 h with
    ⟨_, _, _, hc⟩ | ⟨_, _, _, _, hc, _⟩
  · rw [hc]
  · rw [hc]
    cases optional
    · exact NodeSet.keys_addRoad _ _
    · rfl

theorem roadLoop_ne_nullCity (numRoads cityLimit : Nat) (optional : Bool) :
    ∀ (inp : List Line) (s : LoopState),
      (∀ k, k ≤ cityLimit → k ∈ NodeSet.keys s.cities) →
      roadLoop numRoads cityLimit optional inp s ≠ .error Fault.nullCity
  | [], s, _ => by
    unfold roadLoop
    split_ifs <;> simp
  | l :: rest, s, hk => by
    unfold roadLoop
    split_ifs with hlt
    · cases hs : roadStep cityLimit optional l s with
      | error e =>
        intro h
        simp only [Except.error.injEq] at h
        exact roadStep_ne_nullCity cityLimit optional l s hk (by rw [hs, h])
      | ok s1 =>
        exact roadLoop_ne_nullCity numRoads cityLimit optional rest s1
          (by rw [roadStep_ok_keys _ _ _ _ _ hs]; exact hk)
    · simp

/-- C15: for a map whose keys are `0 .. numCities - 1` with `numCities ≥ 2`, no
run of `promptRoadDetails` ends in a lookup of a missing city.  For every line
that passes the range test, in every state whose map has those keys, the lookup
by the road's `from` and the lookup by its `to` both find a city, so the road is
registered.  And whenever `promptRoadDetails` returns, the keys of the map are
the keys it had before. -/
theorem promptRoadDetails_lookups_never_miss (numRoads : Nat) (cities : NodeSet)
    (optional : Bool) (inp : List Line)
    (hd : NodeSet.Dense cities) (h2 : 2 ≤ NodeSet.size cities)
    (hmax : NodeSet.size cities ≤ ULONG_MAX) :
    promptRoadDetails numRoads cities optional inp ≠ .error Fault.nullCity
    ∧ (∀ (s : LoopState) (l : Line),
        NodeSet.keys s.cities = NodeSet.keys cities →
        inRange (ulongPred (NodeSet.size cities)) l = true →
        (∃ c, NodeSet.find? s.cities l.fromCity = some c)
        ∧ (∃ c, NodeSet.find?
              (NodeSet.modify s.cities l.fromCity
                (fun c => { c with fromRoads := c.fromRoads ++ [roadOf false l] }))
              l.toCity = some c)
        ∧ registerRoad s.cities (Road.new l.toCity l.fromCity l.length false)
            = .ok (addRoad s.cities (roadOf false l)))
    ∧ (∀ (roads : List Road) (cities1 : NodeSet) (rest : List Line) (out : List Event),
        promptRoadDetails numRoads cities optional inp = .ok (roads, cities1, rest, out) →
        NodeSet.keys cities1 = NodeSet.keys cities) := by
  have hkeys := hd.mem_keys_of_le_limit (by omega) hmax
  refine ⟨?_, ?_, ?_⟩
  · intro h
    unfold promptRoadDetails at h
    split at h
    · rename_i e hloop
      simp only [Except.error.injEq] at h
      rw [h] at hloop
      exact roadLoop_ne_nullCity numRoads _ optional inp _ hkeys hloop
    · cases h
  · intro s l hks hl
    have hr := (inRange_eq_true_iff _ _).1 hl
    have hf : l.fromCity ∈ NodeSet.keys s.cities := by rw [hks]; exact hkeys _ hr.1
    have ht : l.toCity ∈ NodeSet.keys s.cities := by rw [hks]; exact hkeys _ hr.2
    refine ⟨NodeSet.find?_some_of_mem_keys _ _ hf, ?_, ?_⟩
    · apply NodeSet.find?_some_of_mem_keys
      rw [NodeSet.keys_modify]
      exact ht
    · exact registerRoad_ok s.cities (roadOf false l) hf ht
  · intro roads cities1 rest out h
    exact (promptRoadDetails_ok_keys _ _ _ _ _ _ _ _ h).1

/-- C15, on the scenario of the specification: three cities and the mandatory
lines `0:1:5` and `1:2:3`; the run does not end in a missing city and the keys
afterwards are still 0, 1, 2. -/
theorem promptRoadDetails_lookups_never_miss_witness :
    promptRoadDetails 2 (insertCities 3) false
        [{ fromCity := 0, toCity := 1, length := 5 }, { fromCity := 1, toCity := 2, length := 3 }]
      ≠ .error Fault.nullCity
    ∧ NodeSet.keys scenarioCities = NodeSet.keys (insertCities 3) :=
  have h := promptRoadDetails_lookups_never_miss 2 (insertCities 3) false
    [{ fromCity := 0, toCity := 1, length := 5 }, { fromCity := 1, toCity := 2, length := 3 }]
    (insertCities_dense 3) (by decide) (by decide)
  ⟨h.1, h.2.2 [⟨0, 1, 5, false⟩, ⟨1, 2, 3, false⟩] scenarioCities []
    [Event.detailsHeader, Event.askRoad 0, Event.newRoad false 0 1 5,
     Event.askRoad 1, Event.newRoad false 1 2 3] rfl⟩

/-! ## The bound `cityLimit` -/

theorem ulongPred_zero : ulongPred 0 = ULONG_MAX := by decide

/-- The map `promptCities` returns has at least two cities, so the bound
`size - 1` is computed without wrap-around and is at least 1; a call of
`promptRoadDetails` for mandatory roads and a following call (or none) for
optional roads leave the size as it is.  For size 0 the bound wraps to
`ULONG_MAX`: the range test of `promptRoadDetails` then passes every pair of
`unsigned long` endpoints and `promptLimit` returns every `unsigned long` id. -/
theorem bound_of_promptCities (inp0 : List Line) (cities : NodeSet) (inp1 : List Line)
    (out1 : List Event)
    (hc : promptCities inp0 = .ok (cities, inp1, out1))
    (hint : ∀ l ∈ inp0, l.d ≤ INT_MAX) :
    (2 ≤ NodeSet.size cities
      ∧ ulongPred (NodeSet.size cities) = NodeSet.size cities - 1
      ∧ 1 ≤ ulongPred (NodeSet.size cities))
    ∧ (∀ (m : Nat) (inp2 : List Line) (roads : List Road) (cities3 : NodeSet)
        (inp3 : List Line) (out3 : List Event),
        promptRoadDetails m cities false inp2 = .ok (roads, cities3, inp3, out3) →
        NodeSet.size cities3 = NodeSet.size cities
        ∧ ∀ (k : Nat) (inp4 : List Line) (optRoads : List Road) (cities5 : NodeSet)
            (inp5 : List Line) (out5 : List Event),
            (if k > 0 then promptRoadDetails k cities3 true inp4
             else .ok ([], cities3, inp4, [])) = .ok (optRoads, cities5, inp5, out5) →
            NodeSet.size cities5 = NodeSet.size cities)
    ∧ (ulongPred 0 = ULONG_MAX
      ∧ (∀ l : Line, l.fromCity ≤ ULONG_MAX → l.toCity ≤ ULONG_MAX →
          inRange (ulongPred 0) l = true)
      ∧ (∀ (start : Bool) (l : Line) (rest : List Line), l.lu ≤ ULONG_MAX →
          promptLimit 0 start (l :: rest)
            = .ok (l.lu, rest, [Event.askLimit start, Event.limitChosen start l.lu]))) := by
  obtain ⟨l, hl, h2, rfl⟩ := promptCities_ok inp0 cities inp1 out1 hc
  have hmax := hint l hl
  have hsize : NodeSet.size (insertCities l.d) = l.d.toNat := insertCities_size l.d
  have hp := ulongPred_size_insertCities l.d h2 hmax
  refine ⟨⟨by rw [hsize]; omega, by rw [hp, hsize], by rw [hp]; omega⟩, ?_, ulongPred_zero, ?_, ?_⟩
  · intro m inp2 roads cities3 inp3 out3 hd
    have h3 := (promptRoadDetails_ok_keys _ _ _ _ _ _ _ _ hd).2
    refine ⟨h3, ?_⟩
    intro k inp4 optRoads cities5 inp5 out5 ho
    rw [optionalStage_ok_size _ _ _ _ _ _ _ ho, h3]
  · intro x hf ht
    rw [ulongPred_zero]
    exact (inRange_eq_true_iff _ _).2 ⟨hf, ht⟩
  · intro start x rest hx
    have h := promptLimitLoop_spec (ulongPred 0) start x rest
      (by rw [ulongPred_zero]; exact hx) [] [] (by simp)
    simp only [List.nil_append] at h
    unfold promptLimit
    rw [h]
    simp

/-! ## `promptRoadDetails`: termination and the input consumed -/

theorem readUpTo_append_unreadAfter (cityLimit : Nat) :
    ∀ (n : Nat) (inp : List Line),
      readUpTo cityLimit n inp ++ unreadAfter cityLimit n inp = inp
  | 0, inp => by simp [readUpTo, unreadAfter]
  | n + 1, [] => by simp [readUpTo, unreadAfter]
  | n + 1, l :: rest => by
    cases hl : inRange cityLimit l with
    | false =>
      simp [readUpTo, unreadAfter, hl, readUpTo_append_unreadAfter cityLimit (n + 1) rest]
    | true =>
      simp [readUpTo, unreadAfter, hl, readUpTo_append_unreadAfter cityLimit n rest]

theorem filter_readUpTo (cityLimit : Nat) :
    ∀ (n : Nat) (inp : List Line),
      (readUpTo cityLimit n inp).filter (inRange cityLimit) = acceptedLines cityLimit n inp
  | 0, inp => by simp [readUpTo, acceptedLines]
  | n + 1, [] => by simp [readUpTo, acceptedLines]
  | n + 1, l :: rest => by
    cases hl : inRange cityLimit l with
    | false =>
      simp only [readUpTo, hl, Bool.false_eq_true, if_false]
      rw [acceptedLines_cons_rejected _ _ _ _ hl, ← filter_readUpTo cityLimit (n + 1) rest]
      simp [List.filter, hl]
    | true =>
      simp only [readUpTo, hl, if_true]
      rw [acceptedLines_cons_accepted _ _ _ _ hl, ← filter_readUpTo cityLimit n rest]
      simp [List.filter, hl]

theorem readUpTo_ends_in_range (cityLimit : Nat) :
    ∀ (n : Nat) (inp : List Line),
      n + 1 ≤ (inp.filter (inRange cityLimit)).length →
      ∃ pre l, readUpTo cityLimit (n + 1) inp = pre ++ [l] ∧ inRange cityLimit l = true
  | n, [], h => by simp at h
  | n, l :: rest, h => by
    cases hl : inRange cityLimit l with
    | false =>
      have h1 : n + 1 ≤ (rest.filter (inRange cityLimit)).length := by
        simpa [List.filter, hl] using h
      obtain ⟨pre, x, hp, hx⟩ := readUpTo_ends_in_range cityLimit n rest h1
      exact ⟨l :: pre, x, by simp [readUpTo, hl, hp], hx⟩
    | true =>
      cases n with
      | zero => exact ⟨[], l, by simp [readUpTo, hl], hl⟩
      | succ n =>
        have h1 : n + 1 ≤ (rest.filter (inRange cityLimit)).length := by
          simpa [List.filter, hl] using h
        obtain ⟨pre, x, hp, hx⟩ := readUpTo_ends_in_range cityLimit n rest h1
        exact ⟨l :: pre, x, by simp [readUpTo, hl, hp], hx⟩

/-- For a count that fits an `int` and an input with at least `numRoads`
in-range lines, `promptRoadDetails` returns, and the input it has read is
exactly the part up to and including the `numRoads`-th in-range line: that part
holds `numRoads` in-range lines, ends with one (when `numRoads ≥ 1`), and what
follows it is returned unread. -/
theorem promptRoadDetails_terminates_and_consumes (numRoads : Nat) (cities : NodeSet)
    (optional : Bool) (inp : List Line)
    (hn : (numRoads : Int) ≤ INT_MAX)
    (hinp : numRoads ≤ (inp.filter (inRange (ulongPred (NodeSet.size cities)))).length)
    (hk : optional = false →
      ∀ k, k ≤ ulongPred (NodeSet.size cities) → k ∈ NodeSet.keys cities) :
    ∃ roads cities1 consumed rest out,
      promptRoadDetails numRoads cities optional inp = .ok (roads, cities1, rest, out)
      ∧ inp = consumed ++ rest
      ∧ (consumed.filter (inRange (ulongPred (NodeSet.size cities)))).length = numRoads
      ∧ (1 ≤ numRoads → ∃ pre l, consumed = pre ++ [l]
          ∧ inRange (ulongPred (NodeSet.size cities)) l = true) := by
  obtain ⟨out, h⟩ := promptRoadDetails_complete numRoads cities optional inp hn hinp hk
  refine ⟨_, _, readUpTo (ulongPred (NodeSet.size cities)) numRoads inp, _, out, h,
    (readUpTo_append_unreadAfter _ _ _).symm, ?_, ?_⟩
  · rw [filter_readUpTo]
    exact length_acceptedLines _ _ _ hinp
  · intro h1
    obtain ⟨n, rfl⟩ : ∃ n, numRoads = n + 1 := ⟨numRoads - 1, by omega⟩
    exact readUpTo_ends_in_range _ n inp hinp

/-- On lines that all fail the range test the loop, asked for at least one
road, stays where it started: after any number of them the index is still 0 and
the vector of roads still empty; and when the input ends the loop has not
returned. -/
theorem roadLoop_all_rejected (numRoads cityLimit : Nat) (optional : Bool)
    (cities : NodeSet) (h1 : 1 ≤ numRoads) :
    ∀ (pre rest : List Line) (out0 : List Event),
      (∀ l ∈ pre, inRange cityLimit l = false) →
      (∃ out, roadLoop numRoads cityLimit optional (pre ++ rest)
          { i := 0, roads := [], cities := cities, out := out0 }
        = roadLoop numRoads cityLimit optional rest
          { i := 0, roads := [], cities := cities, out := out })
      ∧ roadLoop numRoads cityLimit optional pre
          { i := 0, roads := [], cities := cities, out := out0 } = .error Fault.endOfInput
  | [], rest, out0, _ => by
    have hlt : toULong 0 < numRoads := by
      have : toULong 0 = 0 := by decide
      omega
    exact ⟨⟨out0, rfl⟩, by simp [roadLoop, hlt]⟩
  | l :: pre, rest, out0, h => by
    have hlt : toULong
        ({ i := 0, roads := [], cities := cities, out := out0 } : LoopState).i < numRoads := by
      have : toULong 0 = 0 := by decide
      show toULong 0 < numRoads
      omega
    have hl := h l (List.mem_cons_self _ _)
    have hstep := roadStep_rejected cityLimit optional l
      { i := 0, roads := [], cities := cities, out := out0 } hl (le_refl _)
      (by show (0 : Int) ≤ INT_MAX; decide)
    obtain ⟨⟨out, ih1⟩, ih2⟩ := roadLoop_all_rejected numRoads cityLimit optional cities h1
      pre rest (out0 ++ [Event.askRoad 0, Event.roadError cityLimit])
      (fun x hx => h x (List.mem_cons_of_mem _ hx))
    constructor
    · refine ⟨out, ?_⟩
      rw [List.cons_append, roadLoop_cons numRoads cityLimit optional l (pre ++ rest) _ _ hlt hstep]
      exact ih1
    · rw [roadLoop_cons numRoads cityLimit optional l pre _ _ hlt hstep]
      exact ih2

/-- C17, where the code departs from it: asked for `2 ^ 31 + 1` optional roads
over two cities and given `2 ^ 31 + 1` in-range lines `1:0:2` followed by one
more line, `promptRoadDetails` does not terminate with the last line unread:
after the `2 ^ 31`-th road its `int` index is incremented at `INT_MAX`, which is
undefined. -/
theorem promptRoadDetails_termination_int_overflow :
    promptRoadDetails (2 ^ 31 + 1) (insertCities 2) true
        (List.replicate (2 ^ 31 + 1) { fromCity := 1, toCity := 0, length := 2 }
          ++ [{ fromCity := 9, toCity := 9, length := 9 }])
      = .error Fault.intOverflow := by
  apply promptRoadDetails_overflow
  · decide
  · have hs : ulongPred (NodeSet.size (insertCities 2)) = 1 := by decide
    have hr : inRange 1 { fromCity := 1, toCity := 0, length := 2 } = true := by decide
    rw [hs, List.filter_append, List.filter_replicate, hr, if_pos rfl, List.length_append,
      List.length_replicate]
    omega
  · intro h
    cases h

/-! ## `read`: the bound in every call it makes -/

theorem boundOk_size_insertCities (c : Int) (h2 : 2 ≤ c) (hmax : c ≤ INT_MAX) :
    BoundOk (NodeSet.size (insertCities c)) := by
  have hp := ulongPred_size_insertCities c h2 hmax
  have hs := insertCities_size c
  exact ⟨by rw [hs]; omega, by rw [hp, hs], by rw [hp]; omega⟩

/-- C16: every run of `read`, stage by stage.  Whatever the input (its counts
read with `%d` being `int`s), `read` fails where its first failing stage fails
and otherwise returns the result assembled from the stages; the map it passes
to `promptRoadDetails` for the mandatory roads, the map it passes for the
optional roads and the `numCities` it passes to both calls of `promptLimit`
all have a size `n ≥ 2`, for which `cityLimit = n - 1` does not wrap and is at
least 1.  Without that (size 0) the bound wraps to `ULONG_MAX`: the range test
of `promptRoadDetails` then passes every pair of `unsigned long` endpoints and
`promptLimit` returns every `unsigned long` id. -/
theorem read_bound_never_wraps (inp0 : List Line) (hint : ∀ l ∈ inp0, l.d ≤ INT_MAX) :
    (match promptCities inp0 with
     | .error e => read inp0 = .error e
     | .ok (cities, inp1, out1) =>
       BoundOk (NodeSet.size cities) ∧
       match promptRoads false inp1 with
       | .error e => read inp0 = .error e
       | .ok (m, inp2, out2) =>
         match promptRoadDetails m cities false inp2 with
         | .error e => read inp0 = .error e
         | .ok (_, cities3, inp3, out3) =>
           BoundOk (NodeSet.size cities3) ∧
           match promptRoads true inp3 with
           | .error e => read inp0 = .error e
           | .ok (k, inp4, out4) =>
             match (if k > 0 then promptRoadDetails k cities3 true inp4
                    else .ok ([], cities3, inp4, [])) with
             | .error e => read inp0 = .error e
             | .ok (optRoads, cities5, inp5, out5) =>
               BoundOk (NodeSet.size cities5) ∧
               match promptLimit (NodeSet.size cities5) true inp5 with
               | .error e => read inp0 = .error e
               | .ok (fromCity, inp6, out6) =>
                 match promptLimit (NodeSet.size cities5) false inp6 with
                 | .error e => read inp0 = .error e
                 | .ok (toCity, inp7, out7) =>
                   read inp0
                     = .ok (InputReaderResult.new toCity fromCity cities5 optRoads, inp7,
                         out1 ++ out2 ++ out3 ++ [Event.newline] ++ out4 ++ out5
                           ++ [Event.newline] ++ out6 ++ [Event.newline] ++ out7
                           ++ [Event.newline]))
    ∧ (ulongPred 0 = ULONG_MAX
      ∧ (∀ l : Line, l.fromCity ≤ ULONG_MAX → l.toCity ≤ ULONG_MAX →
          inRange (ulongPred 0) l = true)
      ∧ (∀ (start : Bool) (l : Line) (rest : List Line), l.lu ≤ ULONG_MAX →
          promptLimit 0 start (l :: rest)
            = .ok (l.lu, rest, [Event.askLimit start, Event.limitChosen start l.lu]))) := by
  constructor
  · cases h1 : promptCities inp0 with
    | error e => simp [read, h1]
    | ok r1 =>
      obtain ⟨cities, inp1, out1⟩ := r1
      obtain ⟨l, hl, h2, hcit⟩ := promptCities_ok inp0 cities inp1 out1 h1
      have hb : BoundOk (NodeSet.size cities) := by
        rw [hcit]
        exact boundOk_size_insertCities l.d h2 (hint l hl)
      dsimp only
      refine ⟨hb, ?_⟩
      cases h2 : promptRoads false inp1 with
      | error e => simp [read, h1, h2]
      | ok r2 =>
        obtain ⟨m, inp2, out2⟩ := r2
        dsimp only
        cases h3 : promptRoadDetails m cities false inp2 with
        | error e => simp [read, h1, h2, h3]
        | ok r3 =>
          obtain ⟨roads, cities3, inp3, out3⟩ := r3
          dsimp only
          have hs3 := (promptRoadDetails_ok_keys _ _ _ _ _ _ _ _ h3).2
          refine ⟨by rw [hs3]; exact hb, ?_⟩
          cases h4 : promptRoads true inp3 with
          | error e => simp [read, h1, h2, h3, h4]
          | ok r4 =>
            obtain ⟨k, inp4, out4⟩ := r4
            dsimp only
            cases h5 : (if k > 0 then promptRoadDetails k cities3 true inp4
                        else .ok ([], cities3, inp4, [])) with
            | error e => simp [read, h1, h2, h3, h4, h5]
            | ok r5 =>
              obtain ⟨optRoads, cities5, inp5, out5⟩ := r5
              dsimp only
              have hs5 := optionalStage_ok_size _ _ _ _ _ _ _ h5
              refine ⟨by rw [hs5, hs3]; exact hb, ?_⟩
              cases h6 : promptLimit (NodeSet.size cities5) true inp5 with
              | error e => simp [read, h1, h2, h3, h4, h5, h6]
              | ok r6 =>
                obtain ⟨fromCity, inp6, out6⟩ := r6
                dsimp only
                cases h7 : promptLimit (NodeSet.size cities5) false inp6 with
                | error e => simp [read, h1, h2, h3, h4, h5, h6, h7]
                | ok r7 =>
                  obtain ⟨toCity, inp7, out7⟩ := r7
                  dsimp only
                  simp [read, h1, h2, h3, h4, h5, h6, h7]
  · refine ⟨ulongPred_zero, ?_, ?_⟩
    · intro x hf ht
      rw [ulongPred_zero]
      exact (inRange_eq_true_iff _ _).2 ⟨hf, ht⟩
    · intro start x rest hx
      have h := promptLimitLoop_spec (ulongPred 0) start x rest
        (by rw [ulongPred_zero]; exact hx) [] [] (by simp)
      simp only [List.nil_append] at h
      unfold promptLimit
      rw [h]
      simp

/-- C16, on the scenario of the specification: the map passed to the mandatory
call, the map after it and the map whose size goes to `promptLimit` all have
three cities, so the bound is 2 each time, and `read` returns the result of the
scenario. -/
theorem read_bound_never_wraps_witness :
    BoundOk (NodeSet.size (insertCities 3))
    ∧ BoundOk (NodeSet.size scenarioCities)
    ∧ BoundOk (NodeSet.size scenarioCities)
    ∧ read scenarioInput
        = .ok (InputReaderResult.new 2 0 scenarioCities [], [], scenarioOutput) :=
  (read_bound_never_wraps scenarioInput (by decide)).1

/-! ## `promptRoadDetails`: the roads returned for a count above `INT_MAX` -/

/-- C12, where the code departs from it: asked for `2 ^ 31 + 1` mandatory roads
over three cities and given `2 ^ 31 + 1` in-range lines `0:2:7`, the function
does not return the first `2 ^ 31 + 1` in-range lines as roads, nor any other
sequence: after the `2 ^ 31`-th road its `int` index is incremented at
`INT_MAX`, which is undefined. -/
theorem promptRoadDetails_roads_int_index_overflow :
    promptRoadDetails (2 ^ 31 + 1) (insertCities 3) false
        (List.replicate (2 ^ 31 + 1) { fromCity := 0, toCity := 2, length := 7 })
      = .error Fault.intOverflow
    ∧ ∀ (roads : List Road) (cities1 : NodeSet) (rest : List Line) (out : List Event),
        promptRoadDetails (2 ^ 31 + 1) (insertCities 3) false
            (List.replicate (2 ^ 31 + 1) { fromCity := 0, toCity := 2, length := 7 })
          ≠ .ok (roads, cities1, rest, out) := by
  have h : promptRoadDetails (2 ^ 31 + 1) (insertCities 3) false
        (List.replicate (2 ^ 31 + 1) { fromCity := 0, toCity := 2, length := 7 })
      = .error Fault.intOverflow := by
    apply promptRoadDetails_overflow
    · decide
    · have hs : ulongPred (NodeSet.size (insertCities 3)) = 2 := by decide
      have hr : inRange 2 { fromCity := 0, toCity := 2, length := 7 } = true := by decide
      rw [hs, List.filter_replicate, hr, if_pos rfl, List.length_replicate]
      omega
    · intro _
      exact (insertCities_dense 3).mem_keys_of_le_limit (by decide) (by decide)
  refine ⟨h, ?_⟩
  intro roads cities1 rest out hok
  rw [h] at hok
  cases hok

/-! ## The invariant of a road -/

end CommandLineReader
